import Mathlib

set_option maxRecDepth 100000

/-
  Verification development for the osslsigncode utility (osslsigncode.c).

  The program signs, verifies, extracts and removes Microsoft Authenticode
  signatures in PE, CAB and MSI containers.  Files are modelled as lists of
  bytes (List Nat, each element intended < 256); the byte-level behaviour of
  the relevant code paths of main, verify_pe_file, calc_pe_checksum,
  calc_pe_digest, msi_cmp and add_timestamp is embedded below.  External
  cryptographic and ASN.1 collaborators (EVP digests, d2i_PKCS7, PKCS7_verify)
  are abstracted as function parameters, mirroring the separation the program
  itself makes between container handling and the OpenSSL primitives.
-/

/-! ## Byte-level primitives -/

/-- Read one byte; out-of-range reads yield 0 (the embedding keeps all
    in-range uses within bounds). -/
def u8 (l : List Nat) (i : Nat) : Nat := l.getD i 0

/-- GET_UINT16_LE from the source. -/
def u16le (l : List Nat) (i : Nat) : Nat := u8 l i + 256 * u8 l (i + 1)

/-- GET_UINT32_LE from the source. -/
def u32le (l : List Nat) (i : Nat) : Nat :=
  u8 l i + 256 * u8 l (i + 1) + 65536 * u8 l (i + 2) + 16777216 * u8 l (i + 3)

/-- PUT_UINT16_LE from the source. -/
def put16 (v : Nat) : List Nat := [v % 256, v / 256 % 256]

/-- PUT_UINT32_LE from the source. -/
def put32 (v : Nat) : List Nat :=
  [v % 256, v / 256 % 256, v / 65536 % 256, v / 16777216 % 256]

/-- Bytes of positions a (inclusive) to b (exclusive). -/
def bslice (l : List Nat) (a b : Nat) : List Nat := (l.drop a).take (b - a)

/-- Overwrite bytes starting at position pos (models BIO_seek followed by
    BIO_write into an already-written output). -/
def writeAt (l : List Nat) (pos : Nat) (b : List Nat) : List Nat :=
  l.take pos ++ b ++ l.drop (pos + b.length)

/-- Build a concrete byte list from a length and point patches. -/
def bytesWith (n : Nat) (ps : List (Nat × Nat)) : List Nat :=
  ps.foldl (fun l p => l.set p.1 p.2) (List.replicate n 0)

/-! ## List plumbing lemmas -/

theorem take_app_le (x y : List Nat) (n : Nat) (h : n ≤ x.length) :
    (x ++ y).take n = x.take n := by
  rw [List.take_append_eq_append_take]; simp [Nat.sub_eq_zero_of_le h]

theorem drop_app_le (x y : List Nat) (n : Nat) (h : n ≤ x.length) :
    (x ++ y).drop n = x.drop n ++ y := by
  rw [List.drop_append_eq_append_drop]; simp [Nat.sub_eq_zero_of_le h]

theorem drop_app_add (x y : List Nat) (k : Nat) :
    (x ++ y).drop (x.length + k) = y.drop k := by
  rw [List.drop_append_eq_append_drop]; simp

theorem drop_app_all (x y : List Nat) : (x ++ y).drop x.length = y := by
  simp

theorem take_app_all (x y : List Nat) : (x ++ y).take x.length = x := by simp

theorem u8_app_lt (x y : List Nat) (i : Nat) (h : i < x.length) :
    u8 (x ++ y) i = u8 x i := by
  simp [u8, List.getD_eq_getElem?_getD, List.getElem?_append_left h]

theorem u8_app_ge (x y : List Nat) (k : Nat) :
    u8 (x ++ y) (x.length + k) = u8 y k := by
  simp [u8, List.getD_eq_getElem?_getD,
    List.getElem?_append_right (by omega : x.length ≤ x.length + k)]

theorem u8_take (l : List Nat) (n i : Nat) (h : i < n) :
    u8 (l.take n) i = u8 l i := by
  simp [u8, List.getD_eq_getElem?_getD, List.getElem?_take, h]

theorem u8_drop (l : List Nat) (n k : Nat) :
    u8 (l.drop n) k = u8 l (n + k) := by
  simp [u8, List.getD_eq_getElem?_getD, List.getElem?_drop]

theorem length_bslice (l : List Nat) (a b : Nat) :
    (bslice l a b).length = min (b - a) (l.length - a) := by
  simp [bslice]

theorem length_bslice_of_le (l : List Nat) (a b : Nat) (hab : a ≤ b)
    (h : b ≤ l.length) : (bslice l a b).length = b - a := by
  rw [length_bslice]; omega

theorem bslice_zero (l : List Nat) (b : Nat) : bslice l 0 b = l.take b := by
  simp [bslice]

theorem bslice_all (l : List Nat) : bslice l 0 l.length = l := by
  simp [bslice]

theorem u8_bslice (l : List Nat) (a b k : Nat) (h : k < b - a) :
    u8 (bslice l a b) k = u8 l (a + k) := by
  rw [bslice, u8_take _ _ _ h, u8_drop]

theorem writeAt_exact (x y z b : List Nat) (h : y.length = b.length) :
    writeAt (x ++ y ++ z) x.length b = x ++ b ++ z := by
  unfold writeAt
  have ht : (x ++ y ++ z).take x.length = x := by
    rw [List.append_assoc, take_app_all]
  have hd : (x ++ y ++ z).drop (x.length + b.length) = z := by
    rw [List.append_assoc, drop_app_add, ← h, drop_app_all]
  rw [ht, hd]

theorem length_writeAt (l b : List Nat) (pos : Nat) (h : pos + b.length ≤ l.length) :
    (writeAt l pos b).length = l.length := by
  simp [writeAt]; omega

/-- Fold congruence over List.range, used for the checksum proofs. -/
theorem foldl_range_congr (f g : Nat → Nat → Nat) (w : Nat)
    (h : ∀ j < w, ∀ c, f c j = g c j) :
    (List.range w).foldl f 0 = (List.range w).foldl g 0 := by
  refine List.foldl_ext f g 0 ?_
  intro c b hb
  exact h b (List.mem_range.mp hb) c

theorem u32le_put32_front (v : Nat) (rest : List Nat) :
    u32le (put32 v ++ rest) 0 = v % 4294967296 := by
  simp only [u32le, put32, List.cons_append, List.nil_append, u8,
    List.getD_cons_zero, List.getD_cons_succ, Nat.zero_add, Nat.reduceAdd]
  omega

theorem u16le_cons2 (a b : Nat) (rest : List Nat) :
    u16le (a :: b :: rest) 0 = a + 256 * b := by
  simp [u16le, u8]

/-! ## File type detection and command dispatch (main) -/

/-- File types recognised by main from the first bytes of the input. -/
inductive FileType
  | cab
  | pe
  | msi
deriving DecidableEq

/-- Magic detection in main: MSCF, then MZ, then the 8-byte MSI signature. -/
def detectType (l : List Nat) : Option FileType :=
  if bslice l 0 4 = [77, 83, 67, 70] then some FileType.cab
  else if bslice l 0 2 = [77, 90] then some FileType.pe
  else if bslice l 0 8 = [208, 207, 17, 224, 161, 177, 26, 225] then some FileType.msi
  else none

/-- Fatal error messages issued by main via DO_EXIT before returning -1 and
    unlinking the output file.  Each constructor stands for one format string
    of the source. -/
inductive ErrMsg
  | fileTooShort            -- Unrecognized file type - file is too short
  | unrecognizedType        -- Unrecognized file type
  | notSupportedNonPE       -- Command is not supported for non-PE files
  | corruptDOSTooShort      -- Corrupt DOS file - too short
  | corruptPETooShort       -- Corrupt PE file - too short
  | unrecognizedDOS         -- Unrecognized DOS file type
  | unknownMagic            -- Corrupt PE file - found unknown magic
  | noCertTableResource     -- Can not handle PE files without certificate table resource
  | sigNotAtEnd             -- Corrupt PE file - current signature not at end of file
  | noSignature             -- PE file does not have any signature
  | cabTooShort             -- Corrupt cab file - too short
  | cabFlagBitsSet          -- Cannot sign cab files with flag bits set
deriving DecidableEq

/-- Outcome of one invocation of the program.  The constructor fail models the
    err_cleanup path: stderr message, unlink of the output file (so no output
    artifact remains) and process exit code -1.  The constructor done carries
    the final value of ret (the process exit code, 0 on success) and the bytes
    of the output file, if one was produced.  The constructor undef records a
    run whose exit status is not defined by the C semantics (the bare return
    statement in verify_pe_file, or a non-terminating record walk). -/
inductive RunResult
  | done (exitCode : Nat) (output : Option (List Nat))
  | fail (msg : ErrMsg)
  | undef
deriving DecidableEq

/-! ## PE layout parsing (checks shared by all four commands) -/

/-- Fields the PE branch of main reads before dispatching on the command. -/
structure PeLayout where
  ph : Nat      -- peheader, read from offset 60
  pp : Nat      -- pe32plus: 1 for magic 0x20b, 0 for 0x10b
  sigpos : Nat  -- certificate table offset, directory entry 4
  siglen : Nat  -- certificate table length
deriving DecidableEq

/-- Optional header magic dispatch: 0x20b selects PE32+ (pe32plus 1), 0x10b
    selects PE32 (pe32plus 0), anything else is the unknown magic error. -/
def ppOf (magic : Nat) : Option Nat :=
  if magic = 523 then some 1 else if magic = 267 then some 0 else none

/-- Checks the PE path of main performs on every command, in source order:
    minimum DOS size, peheader bounds, PE signature, optional header magic,
    number of data directories, and that an existing signature sits at the
    end of the file. -/
def parsePe (l : List Nat) : Option PeLayout :=
  if l.length < 64 then none
  else
    let ph := u32le l 60
    if l.length < ph + 160 then none
    else if ¬ (bslice l ph (ph + 4) = [80, 69, 0, 0]) then none
    else
      match ppOf (u16le l (ph + 24)) with
      | none => none
      | some pp =>
        if u32le l (ph + 116 + pp * 16) < 5 then none
        else
          let sigpos := u32le l (ph + 152 + pp * 16)
          let siglen := u32le l (ph + 152 + pp * 16 + 4)
          if 0 < sigpos ∧ ¬ (sigpos + siglen = l.length) then none
          else some (PeLayout.mk ph pp sigpos siglen)

/-- The value fileend holds after the PE branch strips an existing
    signature: sigpos when a signature is present, the file size otherwise. -/
def peFileend (l : List Nat) (L : PeLayout) : Nat :=
  if 0 < L.sigpos then L.sigpos else l.length

/-! ## PE checksum (calc_pe_checksum) -/

/-- One step of the checksum loop:  checkSum += val;
    checkSum = 0xffff AND (checkSum + (checkSum >> 16)).
    Bit operations on the 32-bit accumulator are written with division and
    remainder by 65536, which agree with the C shifts and masks here. -/
def csFold (c v : Nat) : Nat := (c + v + (c + v) / 65536) % 65536

/-- The 16-bit word the loop adds at byte offset 2*j: forced to zero at the
    two word offsets covering the checksum field at peheader+88. -/
def csWord (l : List Nat) (ph j : Nat) : Nat :=
  if 2 * j = ph + 88 ∨ 2 * j = ph + 90 then 0 else u16le l (2 * j)

/-- calc_pe_checksum from the source: folds the 16-bit words (a trailing odd
    byte is never consumed by the 2-byte reads and is dropped), folds once
    more, then adds the number of bytes consumed; the result is the value of
    a 32-bit unsigned accumulator. -/
def calc_pe_checksum (l : List Nat) (ph : Nat) : Nat :=
  let w := l.length / 2
  let c := (List.range w).foldl (fun c j => csFold c (csWord l ph j)) 0
  ((c + c / 65536) % 65536 + 2 * w) % 4294967296

/-! ## PE digest streams and signing -/

/-- Number of zero bytes the sign and remove paths append:
    len = 8 - fileend mod 8, written only when len is nonzero and not 8. -/
def padOf (fe : Nat) : Nat := if fe % 8 = 0 then 0 else 8 - fe % 8

/-- Padding of the PKCS7 blob to an 8 byte boundary: (8 - len mod 8) mod 8. -/
def pad8 (n : Nat) : Nat := (8 - n % 8) % 8

/-- Byte stream fed to the digest BIO by the PE sign and remove path, in
    write order: bytes up to the checksum field, the rest of the optional
    header up to the certificate directory entry, the bytes after that entry
    up to fileend, then the zero padding of the file to an 8 byte boundary. -/
def pe_sign_hash_stream (l : List Nat) (L : PeLayout) (fe : Nat) : List Nat :=
  bslice l 0 (L.ph + 88) ++
  bslice l (L.ph + 92) (L.ph + 152 + L.pp * 16) ++
  bslice l (L.ph + 160 + L.pp * 16) fe ++
  List.replicate (padOf fe) 0

/-- Byte stream calc_pe_digest hashes when reading a (possibly signed) file:
    same ranges as the sign stream but bounded by the fileend argument and
    with no padding of its own. -/
def pe_digest_stream (l : List Nat) (ph pp fe : Nat) : List Nat :=
  bslice l 0 (ph + 88) ++
  bslice l (ph + 92) (ph + 152 + pp * 16) ++
  bslice l (ph + 160 + pp * 16) fe

/-- Bytes the sign and remove paths write to the output before any signature:
    the hashed ranges with four zero bytes in place of the checksum and eight
    zero bytes in place of the certificate directory entry. -/
def pe_strip_bytes (l : List Nat) (L : PeLayout) (fe : Nat) : List Nat :=
  bslice l 0 (L.ph + 88) ++
  [0, 0, 0, 0] ++
  bslice l (L.ph + 92) (L.ph + 152 + L.pp * 16) ++
  List.replicate 8 0 ++
  bslice l (L.ph + 160 + L.pp * 16) fe ++
  List.replicate (padOf fe) 0

/-- The 8 byte WIN_CERTIFICATE header the sign path writes: total length,
    revision 0x0200, type 0x0002. -/
def winCertHeader (len spad : Nat) : List Nat :=
  put32 (len + 8 + spad) ++ put16 512 ++ put16 2

/-- Output file produced by the PE sign path for a given serialised PKCS7
    (sigDer is the i2d_PKCS7 image, produced by the external OpenSSL
    collaborator): stripped body, WIN_CERTIFICATE header, blob, zero padding;
    then the directory entry is patched (BIO_seek to peheader+152+pp*16) and
    finally recalc_pe_checksum patches the checksum field at peheader+88. -/
def pe_sign_out (sigDer l : List Nat) (L : PeLayout) (fe : Nat) : List Nat :=
  let spad := pad8 sigDer.length
  let out0 := pe_strip_bytes l L fe ++ winCertHeader sigDer.length spad ++
    sigDer ++ List.replicate spad 0
  let out1 := writeAt out0 (L.ph + 152 + L.pp * 16)
    (put32 (fe + padOf fe) ++ put32 (sigDer.length + 8 + spad))
  writeAt out1 (L.ph + 88) (put32 (calc_pe_checksum out1 L.ph))

/-- The sign command on a PE input.  Returns the output file bytes together
    with the message digest that get_indirect_data_blob splices into
    SpcIndirectDataContent.messageDigest (BIO_gets on the digest BIO returns
    the digest of everything written to the hash, here abstracted as the
    function Hof applied to the hashed stream; mdnid names the EVP digest). -/
def signPe (Hof : Nat → List Nat → List Nat) (mdnid : Nat) (sigDer l : List Nat) :
    Option (List Nat × List Nat) :=
  if l.length < 4 then none
  else
    match detectType l with
    | some FileType.pe =>
      match parsePe l with
      | none => none
      | some L =>
        let fe := peFileend l L
        some (pe_sign_out sigDer l L fe, Hof mdnid (pe_sign_hash_stream l L fe))
    | _ => none

/-! ## verify_pe_file -/

/-- What the verifier needs from one parsed PKCS7 blob.  The field indirect
    models the source test that the PKCS7 is signed, its contents type is
    SPC_INDIRECT_DATA_OBJID and the content is an ASN1 SEQUENCE; mdAlgDigest
    carries the digest algorithm NID and digest octets of the embedded
    SpcIndirectDataContent when present; cryptoOk is the verdict
    PKCS7_verify with PKCS7_NOVERIFY later returns for this blob. -/
structure ParsedP7 where
  indirect : Bool
  mdAlgDigest : Option (Nat × List Nat)
  cryptoOk : Bool
deriving DecidableEq

/-- Result of verify_pe_file.  ret r is a normal return; undefRet is the bare
    return statement (no value) reached when no message digest could be
    extracted - C leaves the returned int unspecified; hang is the infinite
    loop reached when a record length of zero never advances pos. -/
inductive VRes
  | ret (r : Nat)
  | undefRet
  | hang
deriving DecidableEq

/-- The record walk of verify_pe_file: while pos < siglen and no digest was
    extracted, read the WIN_CERTIFICATE record at sigpos+pos, and when
    revision 0x0200 and type 0x0002 parse its payload with d2i_PKCS7
    (abstracted as parse); advance pos by the record length rounded up to 8.
    Fuel makes the loop a total function; fuel siglen+1 is enough whenever
    the C loop terminates. -/
def certRecordParse (parse : List Nat → Option ParsedP7) (l : List Nat)
    (sigpos pos : Nat) : Option (Nat × List Nat × Bool) :=
  if u16le l (sigpos + pos + 4) = 512 ∧ u16le l (sigpos + pos + 6) = 2 then
    match parse (bslice l (sigpos + pos + 8) (sigpos + pos + u32le l (sigpos + pos))) with
    | some pr =>
      if pr.indirect then
        match pr.mdAlgDigest with
        | some (nid, dg) => some (nid, dg, pr.cryptoOk)
        | none => none
      else none
    | none => none
  else none

def findCert (parse : List Nat → Option ParsedP7) (l : List Nat)
    (sigpos siglen : Nat) : Nat → Nat → Option (Option (Nat × List Nat × Bool))
  | 0, _ => none
  | Nat.succ fuel, pos =>
    if pos < siglen then
      match certRecordParse parse l sigpos pos with
      | some x => some (some x)
      | none =>
        findCert parse l sigpos siglen fuel
          (pos + (if u32le l (sigpos + pos) % 8 = 0 then u32le l (sigpos + pos)
            else u32le l (sigpos + pos) + (8 - u32le l (sigpos + pos) % 8)))
    else some none

/-- The checksum comparison of verify_pe_file over the first flen bytes:
    a mismatch is flagged only when the stored checksum is nonzero and
    differs from the recomputed one. -/
def pe_checksum_mismatch (l : List Nat) (ph flen : Nat) : Bool :=
  let stored := u32le l (ph + 88)
  decide (¬ stored = 0 ∧ ¬ stored = calc_pe_checksum (bslice l 0 flen) ph)

/-- Remainder of verify_pe_file after the checksum comparison, parameterised
    by the value ret holds at that point.  With no signature it returns ret;
    otherwise it walks the records, compares the stored digest against the
    digest recomputed by calc_pe_digest over the same file (Hof applied to
    the stream), and folds in the PKCS7_verify verdict. -/
def verify_pe_rest (parse : List Nat → Option ParsedP7)
    (Hof : Nat → List Nat → List Nat) (l : List Nat)
    (ph pp sigpos siglen ret0 : Nat) : VRes :=
  if siglen = 0 then VRes.ret ret0
  else
    match findCert parse l sigpos siglen (siglen + 1) 0 with
    | none => VRes.hang
    | some none => VRes.undefRet
    | some (some (nid, stored, cok)) =>
      let computed := Hof nid (pe_digest_stream l ph pp sigpos)
      let r1 := if stored = computed then ret0 else 1
      if cok then VRes.ret r1 else VRes.ret 1

/-- verify_pe_file from the source. -/
def verify_pe_file (parse : List Nat → Option ParsedP7)
    (Hof : Nat → List Nat → List Nat) (l : List Nat)
    (ph pp sigpos siglen : Nat) : VRes :=
  verify_pe_rest parse Hof l ph pp sigpos siglen
    (if pe_checksum_mismatch l ph (sigpos + siglen) then 1 else 0)

/-! ## The four commands on a raw input file -/

/-- The verify command: type checks, the non-PE rejection, the PE layout
    checks, then verify_pe_file; main prints Succeeded or Failed and returns
    the ret value as exit code; verify produces no output file. -/
def runVerify (parse : List Nat → Option ParsedP7)
    (Hof : Nat → List Nat → List Nat) (l : List Nat) : RunResult :=
  if l.length < 4 then RunResult.fail ErrMsg.fileTooShort
  else
    match detectType l with
    | none => RunResult.fail ErrMsg.unrecognizedType
    | some FileType.cab => RunResult.fail ErrMsg.notSupportedNonPE
    | some FileType.msi => RunResult.fail ErrMsg.notSupportedNonPE
    | some FileType.pe =>
      match parsePe l with
      | none => RunResult.fail ErrMsg.corruptPETooShort
      | some L =>
        match verify_pe_file parse Hof l L.ph L.pp
          (if 0 < L.sigpos then L.sigpos else l.length) L.siglen with
        | VRes.ret r => RunResult.done r none
        | VRes.undefRet => RunResult.undef
        | VRes.hang => RunResult.undef

/-- The extract-signature command: writes the certificate table bytes
    (indata + sigpos, length siglen) to the output. -/
def runExtract (l : List Nat) : RunResult :=
  if l.length < 4 then RunResult.fail ErrMsg.fileTooShort
  else
    match detectType l with
    | none => RunResult.fail ErrMsg.unrecognizedType
    | some FileType.cab => RunResult.fail ErrMsg.notSupportedNonPE
    | some FileType.msi => RunResult.fail ErrMsg.notSupportedNonPE
    | some FileType.pe =>
      match parsePe l with
      | none => RunResult.fail ErrMsg.corruptPETooShort
      | some L =>
        if L.sigpos = 0 then RunResult.fail ErrMsg.noSignature
        else RunResult.done 0 (some (bslice l L.sigpos (L.sigpos + L.siglen)))

/-- The remove-signature command: writes the stripped body (checksum and
    certificate directory entry zeroed, file padded to an 8 byte boundary)
    and then recalculates the checksum in place. -/
def runRemove (l : List Nat) : RunResult :=
  if l.length < 4 then RunResult.fail ErrMsg.fileTooShort
  else
    match detectType l with
    | none => RunResult.fail ErrMsg.unrecognizedType
    | some FileType.cab => RunResult.fail ErrMsg.notSupportedNonPE
    | some FileType.msi => RunResult.fail ErrMsg.notSupportedNonPE
    | some FileType.pe =>
      match parsePe l with
      | none => RunResult.fail ErrMsg.corruptPETooShort
      | some L =>
        if L.sigpos = 0 then RunResult.fail ErrMsg.noSignature
        else
          let fe := peFileend l L
          let pre := pe_strip_bytes l L fe
          RunResult.done 0
            (some (writeAt pre (L.ph + 88) (put32 (calc_pe_checksum pre L.ph))))

/-! ## CAB signing -/

/-- The cabsigned template from main: cbReservedCFHeader 0x14, reserved
    folder and data counts, 0x0010, then the two 0xdeadbeef placeholder
    dwords and four zero bytes.  Exactly 20 bytes. -/
def cabsigned_template : List Nat :=
  [20, 0, 0, 0, 0, 0, 16, 0, 222, 173, 190, 239, 222, 173, 190, 239, 0, 0, 0, 0]

/-- Header bytes 20..33 with the RESERVE_PRESENT flag byte (offset 30 of the
    file, index 10 of this window) set to 0x04. -/
def cab_mod_header (l : List Nat) : List Nat := (bslice l 20 34).set 10 4

/-- Per-folder entries as fed to the digest: for each of nfolders entries of
    8 bytes starting at offset 36, the first dword raised by 24 followed by
    the remaining 4 bytes. -/
def cab_folder_stream (l : List Nat) : List Nat :=
  (List.range (u16le l 26)).foldr
    (fun k acc =>
      put32 (u32le l (36 + 8 * k) + 24) ++
      bslice l (36 + 8 * k + 4) (36 + 8 * k + 8) ++ acc) []

/-- Byte stream the CAB sign path feeds to the digest BIO, in write order.
    The 4 bytes written between the modified header window and the folder
    entries are BIO_write(hash, cabsigned+20, 4): a read past the end of the
    20 byte cabsigned array, so their values are indeterminate; they appear
    here as the parameter junk. -/
def cab_sig_hash_stream (junk l : List Nat) : List Nat :=
  bslice l 0 4 ++
  put32 (u32le l 8 + 24) ++
  bslice l 12 16 ++
  put32 (u32le l 16 + 24) ++
  cab_mod_header l ++
  junk ++
  cab_folder_stream l ++
  bslice l (36 + 8 * u16le l 26) l.length

/-- Output of the CAB sign path: digest stream interleaved with the bytes
    written only to outdata (the reserved dword at 4, the two bytes at 34,
    the 20 byte template with the cab-size placeholder already overwritten),
    then the serialised PKCS7 and its padding; finally the blob length is
    patched at output offset 0x30. -/
def cab_sign_out (junk sigDer l : List Nat) : List Nat :=
  let sz24 := u32le l 8 + 24
  let base :=
    bslice l 0 4 ++
    bslice l 4 8 ++
    put32 sz24 ++
    bslice l 12 16 ++
    put32 (u32le l 16 + 24) ++
    cab_mod_header l ++
    bslice l 34 36 ++
    ([20, 0, 0, 0, 0, 0, 16, 0] ++ put32 sz24 ++
      [222, 173, 190, 239] ++ [0, 0, 0, 0]) ++
    junk ++
    cab_folder_stream l ++
    bslice l (36 + 8 * u16le l 26) l.length ++
    sigDer ++ List.replicate (pad8 sigDer.length) 0
  writeAt base 48 (put32 (sigDer.length + pad8 sigDer.length))

/-- The sign command on a CAB input: size and magic checks, the refusal of
    CAB files with flag bits set (bytes 0x1e and 0x1f), then the output. -/
def signCab (junk sigDer l : List Nat) : Option (List Nat) :=
  if l.length < 4 then none
  else
    match detectType l with
    | some FileType.cab =>
      if l.length < 44 then none
      else if ¬ (u8 l 30 = 0 ∧ u8 l 31 = 0) then none
      else some (cab_sign_out junk sigDer l)
    | _ => none

/-- Stream the specification describes for the CAB digest (section 4.2 of the
    spec, source of claim C7): between the modified header bytes and the
    folder entries it places the whole 20 byte cabsigned template with the
    cab-size and blob-length placeholders overwritten with their values. -/
def cab_claimed_hash_stream (l : List Nat) (blobLen : Nat) : List Nat :=
  bslice l 0 4 ++
  put32 (u32le l 8 + 24) ++
  bslice l 12 16 ++
  put32 (u32le l 16 + 24) ++
  cab_mod_header l ++
  ([20, 0, 0, 0, 0, 0, 16, 0] ++ put32 (u32le l 8 + 24) ++
    put32 blobLen ++ [0, 0, 0, 0]) ++
  cab_folder_stream l ++
  bslice l (36 + 8 * u16le l 26) l.length

/-! ## MSI canonical order comparator (msi_cmp) -/

/-- UTF-16 little-endian bytes of one code point, as g_utf8_to_utf16 lays
    them out in memory on a little-endian host. -/
def utf16_of_cp (c : Nat) : List Nat :=
  if c < 65536 then [c % 256, c / 256 % 256]
  else
    let v := c - 65536
    [(55296 + v / 1024) % 256, (55296 + v / 1024) / 256 % 256,
     (56320 + v % 1024) % 256, (56320 + v % 1024) / 256 % 256]

/-- UTF-16LE byte image of a name given as a list of code points. -/
def utf16le_bytes (cs : List Nat) : List Nat := (cs.map utf16_of_cp).flatten

/-- strlen applied to the UTF-16 byte image: counts bytes before the first
    zero byte (for names whose first code point is below 256 this is
    typically 1, because the high byte of the first UTF-16 unit is 0). -/
def msi_strlen (b : List Nat) : Nat := (b.takeWhile (fun x => x != 0)).length

/-- Sign of memcmp over the first n bytes. -/
def memcmpSign : List Nat → List Nat → Nat → Int
  | _, _, 0 => 0
  | [], [], _ + 1 => 0
  | [], _ :: _, _ + 1 => 0
  | _ :: _, [], _ + 1 => 0
  | x :: xs, y :: ys, n + 1 =>
    if x < y then -1 else if y < x then 1 else memcmpSign xs ys n

/-- msi_cmp from the source: convert both names to UTF-16, memcmp over
    MIN(strlen(pa), strlen(pb)) bytes, and on a tie return 1 when strlen(pa)
    is strictly greater, otherwise -1.  The comparison sign is what the
    sorted insertion consumes. -/
def msi_cmp (a b : List Nat) : Int :=
  let pa := utf16le_bytes a
  let pb := utf16le_bytes b
  let d := memcmpSign pa pb (min (msi_strlen pa) (msi_strlen pb))
  if d ≠ 0 then d else if msi_strlen pa > msi_strlen pb then 1 else -1

/-- Comparator the specification describes (source of claim C8): memcmp over
    the UTF-16 bytes truncated to the shorter encoding full length, longer
    name greater on a tie. -/
def claimed_msi_cmp (a b : List Nat) : Int :=
  let pa := utf16le_bytes a
  let pb := utf16le_bytes b
  let d := memcmpSign pa pb (min pa.length pb.length)
  if d ≠ 0 then d
  else if pa.length > pb.length then 1
  else if pb.length > pa.length then -1
  else 0

/-- Comparator as amended for claim C8: the truncation length is the shorter
    NUL-terminated byte count (strlen over the UTF-16 bytes), and a memcmp
    tie yields 1 exactly when the first NUL-terminated count is strictly
    larger, otherwise -1 (also when the counts are equal). -/
def amended_msi_cmp (a b : List Nat) : Int :=
  let pa := utf16le_bytes a
  let pb := utf16le_bytes b
  let la := msi_strlen pa
  let lb := msi_strlen pb
  let d := memcmpSign pa pb (min la lb)
  if d ≠ 0 then d else if la > lb then 1 else -1

/-! ## Timestamp attachment (add_timestamp) -/

/-- Object identifier arcs of pkcs9-countersignature, the NID the source
    passes to PKCS7_add_attribute for both timestamp modes. -/
def pkcs9_countersignature_oid : List Nat := [1, 2, 840, 113549, 1, 9, 6]

/-- Object identifier arcs of id-smime-aa-timeStampToken, the attribute the
    claim (and RFC 3161 consumers) expect. -/
def id_smime_aa_timeStampToken_oid : List Nat := [1, 2, 840, 113549, 1, 9, 16, 2, 14]

/-- Unauthenticated attributes of the primary SignerInfo: pairs of an
    attribute object identifier (as arcs) and a DER value. -/
structure SignerInfoM where
  unauthAttrs : List (List Nat × List Nat)
deriving DecidableEq

/-- The part of a parsed PKCS7 timestamp token the attachment code uses:
    the i2d_PKCS7_SIGNER_INFO image of each signer info, in stack order. -/
structure TokenM where
  signerInfoDers : List (List Nat)
deriving DecidableEq

/-- Parsed TimeStampResp: PKIStatusInfo.status and the optional token. -/
structure TimeStampRespM where
  status : Int
  token : Option TokenM
deriving DecidableEq

/-- Attribute attachment shared by both timestamp modes of add_timestamp:
    PKCS7_add_attribute(si, NID_pkcs9_countersignature, V_ASN1_SEQUENCE,
    astr) where astr holds the DER of the first signer info of the reply. -/
def add_timestamp_attach (si : SignerInfoM) (infoDer : List Nat) : SignerInfoM :=
  SignerInfoM.mk (si.unauthAttrs ++ [(pkcs9_countersignature_oid, infoDer)])

/-- RFC 3161 branch of add_timestamp after the HTTP exchange: a nonzero
    PKIStatusInfo.status or a missing token or signer info aborts with -1;
    otherwise the first signer info DER of the token is attached to the
    primary SignerInfo. -/
def add_timestamp_rfc3161 (si : SignerInfoM) (reply : TimeStampRespM) :
    Option SignerInfoM :=
  if reply.status ≠ 0 then none
  else
    match reply.token with
    | none => none
    | some t =>
      match t.signerInfoDers with
      | [] => none
      | d :: _ => some (add_timestamp_attach si d)

/-! ## Spec-side stream definitions for the PE digest claims -/

/-- Hash input stream exactly as claim C2 words it: the three Authenticode
    ranges followed by zero bytes padding THAT STREAM to an 8 byte boundary
    (no padding when the stream is already aligned). -/
def pe_claimed_stream (l : List Nat) (L : PeLayout) (fe : Nat) : List Nat :=
  let base :=
    bslice l 0 (L.ph + 88) ++
    bslice l (L.ph + 92) (L.ph + 92 + 60 + L.pp * 16) ++
    bslice l (L.ph + 92 + 60 + L.pp * 16 + 8) fe
  base ++ List.replicate (pad8 base.length) 0

/-- Hash input stream as amended for claim C2: the same three ranges, but the
    zero padding counts (8 - fileend mod 8) mod 8 bytes, padding the
    pre-signature file end (not the stream) to an 8 byte boundary. -/
def pe_amended_stream (l : List Nat) (L : PeLayout) (fe : Nat) : List Nat :=
  bslice l 0 (L.ph + 88) ++
  bslice l (L.ph + 92) (L.ph + 92 + 60 + L.pp * 16) ++
  bslice l (L.ph + 92 + 60 + L.pp * 16 + 8) fe ++
  List.replicate (pad8 fe) 0

/-- Payload of the certificate table with the 8 byte WIN_CERTIFICATE header
    removed, as claim C3 describes the extraction output. -/
def winCertPayload (l : List Nat) (L : PeLayout) : List Nat :=
  bslice l (L.sigpos + 8) (L.sigpos + L.siglen)

/-! ## Concrete test vectors -/

/-- Unsigned 224 byte PE32 image: MZ magic, peheader 64, PE signature,
    optional header magic 0x10b, 16 data directories, empty certificate
    directory entry, zero stored checksum. -/
def peU : List Nat :=
  bytesWith 224
    [(0, 77), (1, 90), (60, 64), (64, 80), (65, 69), (88, 11), (89, 1), (180, 16)]

/-- Signed 240 byte PE32 image: peU extended by one 16 byte certificate
    table at 224 (directory entry 224/16), whose WIN_CERTIFICATE record has
    length 16, revision 0x0200, type 0x0002 and payload bytes 1..8. -/
def peS : List Nat :=
  bytesWith 240
    [(0, 77), (1, 90), (60, 64), (64, 80), (65, 69), (88, 11), (89, 1), (180, 16),
     (216, 224), (220, 16),
     (224, 16), (229, 2), (230, 2),
     (232, 1), (233, 2), (234, 3), (235, 4), (236, 5), (237, 6), (238, 7), (239, 8)]

/-- Like peS but the WIN_CERTIFICATE record carries revision 0x0100, so the
    verifier never finds a usable record and cannot extract a digest. -/
def peBad : List Nat :=
  bytesWith 240
    [(0, 77), (1, 90), (60, 64), (64, 80), (65, 69), (88, 11), (89, 1), (180, 16),
     (216, 224), (220, 16),
     (224, 16), (229, 1), (230, 2),
     (232, 1), (233, 2), (234, 3), (235, 4), (236, 5), (237, 6), (238, 7), (239, 8)]

/-- Minimal signable CAB: MSCF magic, cbCabinet 44, coffFiles 36, version
    1.3, no folders, no files, no flag bits. -/
def cab44 : List Nat :=
  bytesWith 44 [(0, 77), (1, 83), (2, 67), (3, 70), (8, 44), (16, 36), (24, 3), (25, 1)]

/-- A digest oracle for witnesses: every stream hashes to [7]. -/
def hofConst : Nat → List Nat → List Nat := fun _ _ => [7]

/-- A digest oracle separating streams of different lengths. -/
def hofLen : Nat → List Nat → List Nat := fun _ s => [s.length % 256]

/-- A concrete PKCS7 DER stand-in used by the witnesses. -/
def sigDer0 : List Nat := [1, 2, 3, 4, 5, 6, 7, 8]

/-- A d2i_PKCS7 oracle for witnesses: every blob parses to a signed indirect
    PKCS7 whose SpcIndirectDataContent stores digest [7] under NID 4 and
    which PKCS7_verify accepts. -/
def parse0 : List Nat → Option ParsedP7 :=
  fun _ => some (ParsedP7.mk true (some (4, [7])) true)

/-- A d2i_PKCS7 oracle that fails on every blob. -/
def parseNone : List Nat → Option ParsedP7 := fun _ => none


/-! ## Inversion and constructor lemmas for parsePe -/

theorem ppOf_some {m p : Nat} (h : ppOf m = some p) :
    (p = 1 ∧ m = 523) ∨ (p = 0 ∧ m = 267) := by
  unfold ppOf at h
  by_cases h1 : m = 523
  · simp [h1] at h; omega
  · simp only [h1, if_false] at h
    by_cases h2 : m = 267
    · simp [h2] at h; omega
    · simp [h2] at h

theorem parsePe_some {l : List Nat} {L : PeLayout} (h : parsePe l = some L) :
    64 ≤ l.length ∧ L.ph = u32le l 60 ∧ L.ph + 160 ≤ l.length ∧
    bslice l L.ph (L.ph + 4) = [80, 69, 0, 0] ∧
    ppOf (u16le l (L.ph + 24)) = some L.pp ∧
    5 ≤ u32le l (L.ph + 116 + L.pp * 16) ∧
    L.sigpos = u32le l (L.ph + 152 + L.pp * 16) ∧
    L.siglen = u32le l (L.ph + 152 + L.pp * 16 + 4) ∧
    (0 < L.sigpos → L.sigpos + L.siglen = l.length) := by
  unfold parsePe at h
  by_cases h1 : l.length < 64
  · simp [h1] at h
  simp only [h1, if_false] at h
  by_cases h2 : l.length < u32le l 60 + 160
  · simp [h2] at h
  simp only [h2, if_false] at h
  by_cases h3 : bslice l (u32le l 60) (u32le l 60 + 4) = [80, 69, 0, 0]
  case neg => simp [h3] at h
  rw [if_neg (by simp [h3])] at h
  cases hm : ppOf (u16le l (u32le l 60 + 24)) with
  | none => rw [hm] at h; cases h
  | some pp =>
    rw [hm] at h
    by_cases h5 : u32le l (u32le l 60 + 116 + pp * 16) < 5
    · simp [h5] at h
    simp only [h5, if_false] at h
    by_cases h6 : 0 < u32le l (u32le l 60 + 152 + pp * 16) ∧
        ¬ (u32le l (u32le l 60 + 152 + pp * 16) +
          u32le l (u32le l 60 + 152 + pp * 16 + 4) = l.length)
    · simp [h6] at h
    simp only [h6, if_false, Option.some.injEq] at h
    subst h
    push_neg at h6
    refine ⟨by omega, rfl, ?_, h3, hm, ?_, rfl, rfl, h6⟩
    · show u32le l 60 + 160 ≤ l.length
      omega
    · show 5 ≤ u32le l (u32le l 60 + 116 + pp * 16)
      omega

theorem parsePe_mk {l : List Nat} {ph pp sigpos siglen : Nat}
    (h64 : 64 ≤ l.length) (hph : u32le l 60 = ph)
    (h160 : ph + 160 ≤ l.length)
    (hsig : bslice l ph (ph + 4) = [80, 69, 0, 0])
    (hmag : ppOf (u16le l (ph + 24)) = some pp)
    (hnr : 5 ≤ u32le l (ph + 116 + pp * 16))
    (hsp : u32le l (ph + 152 + pp * 16) = sigpos)
    (hsl : u32le l (ph + 152 + pp * 16 + 4) = siglen)
    (hend : 0 < sigpos → sigpos + siglen = l.length) :
    parsePe l = some (PeLayout.mk ph pp sigpos siglen) := by
  unfold parsePe
  rw [if_neg (by omega)]
  simp only [hph]
  rw [if_neg (by omega), if_neg (by simp [hsig])]
  simp only [hmag]
  rw [if_neg (by omega), if_neg (by rw [hsp, hsl]; push_neg; intro h; exact hend h),
    hsp, hsl]

/-! ## Reads on the five-segment PE output shape -/

theorem shape_u8_A (A Z B D R : List Nat) (ph : Nat)
    (hA : A.length = ph + 88) (i : Nat) (h : i < ph + 88) :
    u8 (A ++ Z ++ B ++ D ++ R) i = u8 A i := by
  simp only [List.append_assoc]
  exact u8_app_lt _ _ i (by omega)

theorem shape_u8_Z (A Z B D R : List Nat) (ph : Nat)
    (hA : A.length = ph + 88) (k : Nat) :
    u8 (A ++ Z ++ B ++ D ++ R) (ph + 88 + k) = u8 (Z ++ (B ++ (D ++ R))) k := by
  simp only [List.append_assoc]
  have e : ph + 88 + k = A.length + k := by omega
  rw [e, u8_app_ge]

theorem shape_u8_B (A Z B D R : List Nat) (ph : Nat)
    (hA : A.length = ph + 88) (hZ : Z.length = 4) (k : Nat) :
    u8 (A ++ Z ++ B ++ D ++ R) (ph + 92 + k) = u8 (B ++ (D ++ R)) k := by
  simp only [List.append_assoc]
  have e : ph + 92 + k = A.length + (Z.length + k) := by omega
  rw [e, u8_app_ge, u8_app_ge]

theorem shape_u8_D (A Z B D R : List Nat) (ph pp : Nat)
    (hA : A.length = ph + 88) (hZ : Z.length = 4)
    (hB : B.length = 60 + pp * 16) (k : Nat) :
    u8 (A ++ Z ++ B ++ D ++ R) (ph + 152 + pp * 16 + k) = u8 (D ++ R) k := by
  simp only [List.append_assoc]
  have e : ph + 152 + pp * 16 + k = A.length + (Z.length + (B.length + k)) := by omega
  rw [e, u8_app_ge, u8_app_ge, u8_app_ge]

theorem shape_u8_R (A Z B D R : List Nat) (ph pp : Nat)
    (hA : A.length = ph + 88) (hZ : Z.length = 4)
    (hB : B.length = 60 + pp * 16) (hD : D.length = 8) (k : Nat) :
    u8 (A ++ Z ++ B ++ D ++ R) (ph + 160 + pp * 16 + k) = u8 R k := by
  simp only [List.append_assoc]
  have e : ph + 160 + pp * 16 + k = A.length + (Z.length + (B.length + (D.length + k))) := by
    omega
  rw [e, u8_app_ge, u8_app_ge, u8_app_ge, u8_app_ge]

theorem shape_len (A Z B D R : List Nat) (ph pp : Nat)
    (hA : A.length = ph + 88) (hZ : Z.length = 4)
    (hB : B.length = 60 + pp * 16) (hD : D.length = 8) :
    (A ++ Z ++ B ++ D ++ R).length = ph + 160 + pp * 16 + R.length := by
  simp; omega

theorem shape_take_A (A Z B D R : List Nat) (ph : Nat)
    (hA : A.length = ph + 88) :
    (A ++ Z ++ B ++ D ++ R).take (ph + 88) = A := by
  simp only [List.append_assoc]
  rw [← hA, take_app_all]

theorem shape_drop_R (A Z B D R : List Nat) (ph pp : Nat)
    (hA : A.length = ph + 88) (hZ : Z.length = 4)
    (hB : B.length = 60 + pp * 16) (hD : D.length = 8) :
    (A ++ Z ++ B ++ D ++ R).drop (ph + 160 + pp * 16) = R := by
  simp only [List.append_assoc]
  have e1 : ph + 160 + pp * 16 = A.length + (Z.length + (B.length + (D.length + 0))) := by
    omega
  rw [e1, drop_app_add, drop_app_add, drop_app_add, drop_app_add]
  simp

theorem shape_mid (A Z B D R : List Nat) (ph pp : Nat)
    (hA : A.length = ph + 88) (hZ : Z.length = 4)
    (hB : B.length = 60 + pp * 16) :
    bslice (A ++ Z ++ B ++ D ++ R) (ph + 92) (ph + 152 + pp * 16) = B := by
  unfold bslice
  simp only [List.append_assoc]
  have e2 : ph + 152 + pp * 16 - (ph + 92) = B.length := by omega
  rw [e2]
  have e1 : ph + 92 = A.length + (Z.length + 0) := by omega
  rw [e1, drop_app_add, drop_app_add]
  simp only [List.drop_zero]
  rw [take_app_all]

/-! ## Checksum lemmas -/

theorem calc_pe_checksum_congr (l1 l2 : List Nat) (ph : Nat)
    (hlen : l1.length = l2.length) (hph : ph % 2 = 0)
    (h : ∀ i, i < ph + 88 ∨ ph + 92 ≤ i → u8 l1 i = u8 l2 i) :
    calc_pe_checksum l1 ph = calc_pe_checksum l2 ph := by
  simp only [calc_pe_checksum]
  rw [hlen]
  have hf : (List.range (l2.length / 2)).foldl (fun c j => csFold c (csWord l1 ph j)) 0
      = (List.range (l2.length / 2)).foldl (fun c j => csFold c (csWord l2 ph j)) 0 := by
    apply foldl_range_congr
    intro j _ c
    have hw : csWord l1 ph j = csWord l2 ph j := by
      unfold csWord
      by_cases hc : 2 * j = ph + 88 ∨ 2 * j = ph + 90
      · rw [if_pos hc, if_pos hc]
      · rw [if_neg hc, if_neg hc]
        push_neg at hc
        unfold u16le
        rw [h (2 * j) (by omega), h (2 * j + 1) (by omega)]
    rw [hw]
  rw [hf]

theorem u8_writeAt_out (l b : List Nat) (pos i : Nat)
    (hb : pos + b.length ≤ l.length) (h : i < pos ∨ pos + b.length ≤ i) :
    u8 (writeAt l pos b) i = u8 l i := by
  unfold writeAt
  simp only [List.append_assoc]
  rcases h with h | h
  · rw [u8_app_lt _ _ i (by simp; omega), u8_take _ _ _ (by omega)]
  · have e : i = (l.take pos).length + (b.length + (i - pos - b.length)) := by
      simp; omega
    rw [e, u8_app_ge]
    have e2 : b.length + (i - pos - b.length) = b.length + (i - pos - b.length) := rfl
    rw [u8_app_ge, u8_drop]
    congr 1
    omega

theorem u8_writeAt_in (l b : List Nat) (pos k : Nat)
    (hpos : pos ≤ l.length) (hk : k < b.length) :
    u8 (writeAt l pos b) (pos + k) = u8 b k := by
  unfold writeAt
  simp only [List.append_assoc]
  have e : pos + k = (l.take pos).length + k := by simp; omega
  rw [e, u8_app_ge, u8_app_lt _ _ _ hk]

/-- The checksum of a file does not depend on the four bytes stored in the
    checksum field itself (the loop forces the two words there to zero). -/
theorem calc_pe_checksum_writeAt_cs (l b : List Nat) (ph : Nat)
    (hb : b.length = 4) (hph : ph % 2 = 0) (hlen : ph + 92 ≤ l.length) :
    calc_pe_checksum (writeAt l (ph + 88) b) ph = calc_pe_checksum l ph := by
  apply calc_pe_checksum_congr
  · exact length_writeAt _ _ _ (by omega)
  · exact hph
  · intro i hi
    exact u8_writeAt_out l b (ph + 88) i (by omega) (by omega)

/-! ## Components and shape of the PE outputs -/

/-- Bytes before the checksum field. -/
def peHead (l : List Nat) (L : PeLayout) : List Nat := bslice l 0 (L.ph + 88)

/-- Optional header bytes between the checksum field and the certificate
    directory entry. -/
def peMid (l : List Nat) (L : PeLayout) : List Nat :=
  bslice l (L.ph + 92) (L.ph + 152 + L.pp * 16)

/-- Bytes after the certificate directory entry up to fileend. -/
def peTail (l : List Nat) (L : PeLayout) (fe : Nat) : List Nat :=
  bslice l (L.ph + 160 + L.pp * 16) fe

/-- Everything the sign path emits after the certificate directory entry:
    tail bytes, file padding, WIN_CERTIFICATE header, blob, blob padding. -/
def peSigTail (sigDer l : List Nat) (L : PeLayout) (fe : Nat) : List Nat :=
  peTail l L fe ++ List.replicate (padOf fe) 0 ++
  winCertHeader sigDer.length (pad8 sigDer.length) ++ sigDer ++
  List.replicate (pad8 sigDer.length) 0

/-- The patched certificate directory entry: offset fe+padOf fe, length
    blob length + 8 + blob padding. -/
def dirEntryBytes (sigDer : List Nat) (fe : Nat) : List Nat :=
  put32 (fe + padOf fe) ++ put32 (sigDer.length + 8 + pad8 sigDer.length)

/-- The signed output before the final checksum patch. -/
def peOut1 (sigDer l : List Nat) (L : PeLayout) (fe : Nat) : List Nat :=
  peHead l L ++ [0, 0, 0, 0] ++ peMid l L ++ dirEntryBytes sigDer fe ++
  peSigTail sigDer l L fe

theorem peHead_len (l : List Nat) (L : PeLayout) (h : L.ph + 88 ≤ l.length) :
    (peHead l L).length = L.ph + 88 := by
  unfold peHead; rw [length_bslice_of_le] <;> omega

theorem peMid_len (l : List Nat) (L : PeLayout) (h : L.ph + 152 + L.pp * 16 ≤ l.length) :
    (peMid l L).length = 60 + L.pp * 16 := by
  unfold peMid; rw [length_bslice_of_le] <;> omega

theorem peTail_len (l : List Nat) (L : PeLayout) (fe : Nat)
    (h1 : L.ph + 160 + L.pp * 16 ≤ fe) (h2 : fe ≤ l.length) :
    (peTail l L fe).length = fe - (L.ph + 160 + L.pp * 16) := by
  unfold peTail; rw [length_bslice_of_le] <;> omega

theorem winCertHeader_len (n spad : Nat) : (winCertHeader n spad).length = 8 := by
  simp [winCertHeader, put32, put16]

theorem dirEntryBytes_len (sigDer : List Nat) (fe : Nat) :
    (dirEntryBytes sigDer fe).length = 8 := by
  simp [dirEntryBytes, put32]

theorem peSigTail_len (sigDer l : List Nat) (L : PeLayout) (fe : Nat)
    (h1 : L.ph + 160 + L.pp * 16 ≤ fe) (h2 : fe ≤ l.length) :
    (peSigTail sigDer l L fe).length =
      (fe - (L.ph + 160 + L.pp * 16)) + padOf fe + 8 + sigDer.length +
        pad8 sigDer.length := by
  unfold peSigTail
  simp [peTail_len l L fe h1 h2, winCertHeader_len]
  omega

theorem u8_peHead (l : List Nat) (L : PeLayout) (i : Nat) (h : i < L.ph + 88) :
    u8 (peHead l L) i = u8 l i := by
  unfold peHead
  rw [u8_bslice _ _ _ _ (by omega)]
  congr 1
  omega

theorem u8_peMid (l : List Nat) (L : PeLayout) (k : Nat) (h : k < 60 + L.pp * 16) :
    u8 (peMid l L) k = u8 l (L.ph + 92 + k) := by
  unfold peMid
  rw [u8_bslice _ _ _ _ (by omega)]

theorem u8_peTail (l : List Nat) (L : PeLayout) (fe k : Nat)
    (h : k < fe - (L.ph + 160 + L.pp * 16)) :
    u8 (peTail l L fe) k = u8 l (L.ph + 160 + L.pp * 16 + k) := by
  unfold peTail
  rw [u8_bslice _ _ _ _ (by omega)]

theorem shape_writeAt_D (A Z B D R b : List Nat) (ph pp : Nat)
    (hA : A.length = ph + 88) (hZ : Z.length = 4) (hB : B.length = 60 + pp * 16)
    (hD : D.length = 8) (hb : b.length = 8) :
    writeAt (A ++ Z ++ B ++ D ++ R) (ph + 152 + pp * 16) b = A ++ Z ++ B ++ b ++ R := by
  have e : ph + 152 + pp * 16 = (A ++ Z ++ B).length := by simp; omega
  rw [e, writeAt_exact (A ++ Z ++ B) D R b (by omega)]

theorem shape_writeAt_Z (A Z B D R b : List Nat) (ph : Nat)
    (hA : A.length = ph + 88) (hZ : Z.length = 4) (hb : b.length = 4) :
    writeAt (A ++ Z ++ B ++ D ++ R) (ph + 88) b = A ++ b ++ B ++ D ++ R := by
  have e1 : A ++ Z ++ B ++ D ++ R = A ++ Z ++ (B ++ D ++ R) := by simp
  have e2 : A ++ b ++ B ++ D ++ R = A ++ b ++ (B ++ D ++ R) := by simp
  rw [e1, e2, ← hA, writeAt_exact A Z (B ++ D ++ R) b (by omega)]

/-- The signed PE output in explicit five-segment form. -/
theorem pe_sign_out_eq (sigDer l : List Nat) (L : PeLayout) (fe : Nat)
    (hfe : L.ph + 160 + L.pp * 16 ≤ fe) (hfl : fe ≤ l.length) :
    pe_sign_out sigDer l L fe =
      peHead l L ++ put32 (calc_pe_checksum (peOut1 sigDer l L fe) L.ph) ++
      peMid l L ++ dirEntryBytes sigDer fe ++ peSigTail sigDer l L fe := by
  have hA : (peHead l L).length = L.ph + 88 := peHead_len l L (by omega)
  have hB : (peMid l L).length = 60 + L.pp * 16 := peMid_len l L (by omega)
  simp only [pe_sign_out]
  have e0 : pe_strip_bytes l L fe ++ winCertHeader sigDer.length (pad8 sigDer.length) ++
      sigDer ++ List.replicate (pad8 sigDer.length) 0 =
      peHead l L ++ [0, 0, 0, 0] ++ peMid l L ++ List.replicate 8 0 ++
        peSigTail sigDer l L fe := by
    unfold pe_strip_bytes peSigTail peHead peMid peTail
    simp [List.append_assoc]
  rw [e0]
  have ed : dirEntryBytes sigDer fe =
      put32 (fe + padOf fe) ++ put32 (sigDer.length + 8 + pad8 sigDer.length) := rfl
  rw [← ed]
  rw [shape_writeAt_D (peHead l L) [0, 0, 0, 0] (peMid l L) (List.replicate 8 0)
    (peSigTail sigDer l L fe) (dirEntryBytes sigDer fe) L.ph L.pp hA (by simp) hB
    (by simp) (dirEntryBytes_len sigDer fe)]
  rw [shape_writeAt_Z (peHead l L) [0, 0, 0, 0] (peMid l L) (dirEntryBytes sigDer fe)
    (peSigTail sigDer l L fe) _ L.ph hA (by simp) (by simp [put32])]
  rfl

/-- The remove output in explicit five-segment form. -/
theorem remove_out_eq (l : List Nat) (L : PeLayout) (fe : Nat)
    (hfe : L.ph + 160 + L.pp * 16 ≤ fe) (hfl : fe ≤ l.length) :
    writeAt (pe_strip_bytes l L fe) (L.ph + 88)
        (put32 (calc_pe_checksum (pe_strip_bytes l L fe) L.ph)) =
      peHead l L ++ put32 (calc_pe_checksum (pe_strip_bytes l L fe) L.ph) ++
      peMid l L ++ List.replicate 8 0 ++
      (peTail l L fe ++ List.replicate (padOf fe) 0) := by
  have hA : (peHead l L).length = L.ph + 88 := peHead_len l L (by omega)
  have e0 : pe_strip_bytes l L fe =
      peHead l L ++ [0, 0, 0, 0] ++ peMid l L ++ List.replicate 8 0 ++
        (peTail l L fe ++ List.replicate (padOf fe) 0) := by
    unfold pe_strip_bytes peHead peMid peTail
    simp [List.append_assoc]
  rw [e0]
  rw [shape_writeAt_Z (peHead l L) [0, 0, 0, 0] (peMid l L) (List.replicate 8 0)
    (peTail l L fe ++ List.replicate (padOf fe) 0) _ L.ph hA (by simp) (by simp [put32])]

/-- padOf and pad8 agree. -/
theorem padOf_eq_pad8 (fe : Nat) : padOf fe = pad8 fe := by
  unfold padOf pad8
  by_cases h : fe % 8 = 0
  · simp [h]
  · rw [if_neg h]
    omega

/-! ## Multi-byte read congruences -/

theorem u16le_congr (l1 l2 : List Nat) (i : Nat)
    (h0 : u8 l1 i = u8 l2 i) (h1 : u8 l1 (i + 1) = u8 l2 (i + 1)) :
    u16le l1 i = u16le l2 i := by
  unfold u16le; rw [h0, h1]

theorem u32le_congr (l1 l2 : List Nat) (i : Nat)
    (h0 : u8 l1 i = u8 l2 i) (h1 : u8 l1 (i + 1) = u8 l2 (i + 1))
    (h2 : u8 l1 (i + 2) = u8 l2 (i + 2)) (h3 : u8 l1 (i + 3) = u8 l2 (i + 3)) :
    u32le l1 i = u32le l2 i := by
  unfold u32le; rw [h0, h1, h2, h3]

theorem u32le_shift (big seg : List Nat) (base : Nat)
    (h : ∀ k, k < 4 → u8 big (base + k) = u8 seg k) :
    u32le big base = u32le seg 0 := by
  have h0 : u8 big base = u8 seg 0 := by
    have e := h 0 (by omega)
    rw [Nat.add_zero] at e
    exact e
  have h1 := h 1 (by omega)
  have h2 := h 2 (by omega)
  have h3 := h 3 (by omega)
  unfold u32le
  rw [h0, h1, h2, h3]

theorem u16le_shift (big seg : List Nat) (base : Nat)
    (h : ∀ k, k < 2 → u8 big (base + k) = u8 seg k) :
    u16le big base = u16le seg 0 := by
  have h0 : u8 big base = u8 seg 0 := by
    have e := h 0 (by omega)
    rw [Nat.add_zero] at e
    exact e
  have h1 := h 1 (by omega)
  unfold u16le
  rw [h0, h1]

/-! ## More slice utilities -/

theorem bslice_app_left (x y : List Nat) (a b : Nat) (hb : b ≤ x.length) :
    bslice (x ++ y) a b = bslice x a b := by
  unfold bslice
  by_cases hab : a ≤ b
  · rw [drop_app_le x y a (by omega), take_app_le _ _ _ (by simp; omega)]
  · have e : b - a = 0 := by omega
    simp [e]

theorem bslice_take (l : List Nat) (n a b : Nat) (hb : b ≤ n) :
    bslice (l.take n) a b = bslice l a b := by
  unfold bslice
  rw [List.drop_take, List.take_take]
  congr 1
  omega

theorem bslice_shift (x y : List Nat) (a b : Nat) :
    bslice (x ++ y) (x.length + a) (x.length + b) = bslice y a b := by
  unfold bslice
  rw [drop_app_add]
  congr 1
  omega

theorem bslice_to_end (y : List Nat) (a : Nat) :
    bslice y a y.length = y.drop a := by
  unfold bslice
  apply List.take_of_length_le
  simp

/-! ## Reads on the concrete PE output shapes -/

theorem peShape_u8_keep (Z D R : List Nat) (l : List Nat) (L : PeLayout)
    (hZ : Z.length = 4) (hlen : L.ph + 152 + L.pp * 16 ≤ l.length) (i : Nat)
    (h : i < L.ph + 88 ∨ (L.ph + 92 ≤ i ∧ i < L.ph + 152 + L.pp * 16)) :
    u8 (peHead l L ++ Z ++ peMid l L ++ D ++ R) i = u8 l i := by
  have hA := peHead_len l L (by omega)
  have hB := peMid_len l L (by omega)
  rcases h with h | ⟨h1, h2⟩
  · rw [shape_u8_A _ _ _ _ _ L.ph hA i h, u8_peHead l L i h]
  · have e : i = L.ph + 92 + (i - (L.ph + 92)) := by omega
    rw [e, shape_u8_B _ _ _ _ _ L.ph hA hZ, u8_app_lt _ _ _ (by omega),
      u8_peMid l L _ (by omega)]

theorem peShape_u8_Zseg (Z D R : List Nat) (l : List Nat) (L : PeLayout)
    (hlen : L.ph + 88 ≤ l.length) (k : Nat) (hk : k < 4) (hZ : Z.length = 4) :
    u8 (peHead l L ++ Z ++ peMid l L ++ D ++ R) (L.ph + 88 + k) = u8 Z k := by
  have hA := peHead_len l L hlen
  rw [shape_u8_Z _ _ _ _ _ L.ph hA, u8_app_lt _ _ _ (by omega)]

theorem peShape_u8_Dseg (Z D R : List Nat) (l : List Nat) (L : PeLayout)
    (hZ : Z.length = 4) (hD : D.length = 8)
    (hlen : L.ph + 152 + L.pp * 16 ≤ l.length) (k : Nat) (hk : k < 8) :
    u8 (peHead l L ++ Z ++ peMid l L ++ D ++ R) (L.ph + 152 + L.pp * 16 + k) = u8 D k := by
  have hA := peHead_len l L (by omega)
  have hB := peMid_len l L (by omega)
  rw [shape_u8_D _ _ _ _ _ L.ph L.pp hA hZ hB, u8_app_lt _ _ _ (by omega)]

theorem peShape_u8_Rseg (Z D R : List Nat) (l : List Nat) (L : PeLayout)
    (hZ : Z.length = 4) (hD : D.length = 8)
    (hlen : L.ph + 152 + L.pp * 16 ≤ l.length) (k : Nat) :
    u8 (peHead l L ++ Z ++ peMid l L ++ D ++ R) (L.ph + 160 + L.pp * 16 + k) = u8 R k := by
  have hA := peHead_len l L (by omega)
  have hB := peMid_len l L (by omega)
  rw [shape_u8_R _ _ _ _ _ L.ph L.pp hA hZ hB hD]

theorem peShape_len (Z D R : List Nat) (l : List Nat) (L : PeLayout)
    (hZ : Z.length = 4) (hD : D.length = 8)
    (hlen : L.ph + 152 + L.pp * 16 ≤ l.length) :
    (peHead l L ++ Z ++ peMid l L ++ D ++ R).length =
      L.ph + 160 + L.pp * 16 + R.length := by
  have hA := peHead_len l L (by omega)
  have hB := peMid_len l L (by omega)
  exact shape_len _ _ _ _ _ L.ph L.pp hA hZ hB hD

theorem peShape_bslice_low (Z D R : List Nat) (l : List Nat) (L : PeLayout)
    (hlen : L.ph + 88 ≤ l.length) (a b : Nat) (hb : b ≤ L.ph + 88) :
    bslice (peHead l L ++ Z ++ peMid l L ++ D ++ R) a b = bslice l a b := by
  have hA := peHead_len l L hlen
  have e : peHead l L ++ Z ++ peMid l L ++ D ++ R =
      peHead l L ++ (Z ++ (peMid l L ++ (D ++ R))) := by simp
  rw [e, bslice_app_left _ _ a b (by omega)]
  unfold peHead
  rw [bslice_zero, bslice_take _ _ _ _ hb]

/-- The checksum of either PE output does not depend on the four bytes
    occupying the checksum field segment. -/
theorem calc_shape_Z_irrel (Z1 Z2 D R : List Nat) (l : List Nat) (L : PeLayout)
    (hZ1 : Z1.length = 4) (hZ2 : Z2.length = 4) (hph : L.ph % 2 = 0)
    (hlen : L.ph + 152 + L.pp * 16 ≤ l.length) :
    calc_pe_checksum (peHead l L ++ Z1 ++ peMid l L ++ D ++ R) L.ph =
      calc_pe_checksum (peHead l L ++ Z2 ++ peMid l L ++ D ++ R) L.ph := by
  have hA := peHead_len l L (by omega)
  apply calc_pe_checksum_congr
  · simp; omega
  · exact hph
  · intro i hi
    rcases hi with hi | hi
    · rw [shape_u8_A _ _ _ _ _ L.ph hA i hi, shape_u8_A _ _ _ _ _ L.ph hA i hi]
    · have e : i = L.ph + 92 + (i - (L.ph + 92)) := by omega
      rw [e, shape_u8_B _ _ _ _ _ L.ph hA hZ1, shape_u8_B _ _ _ _ _ L.ph hA hZ2]

/-! ## detectType inversion and preservation -/

theorem detect_pe {l : List Nat} (h : detectType l = some FileType.pe) :
    ¬ bslice l 0 4 = [77, 83, 67, 70] ∧ bslice l 0 2 = [77, 90] := by
  unfold detectType at h
  by_cases h1 : bslice l 0 4 = [77, 83, 67, 70]
  · rw [if_pos h1] at h; cases h
  · rw [if_neg h1] at h
    by_cases h2 : bslice l 0 2 = [77, 90]
    · exact ⟨h1, h2⟩
    · rw [if_neg h2] at h
      by_cases h3 : bslice l 0 8 = [208, 207, 17, 224, 161, 177, 26, 225]
      · rw [if_pos h3] at h; cases h
      · rw [if_neg h3] at h; cases h

theorem detect_pe_mk {l : List Nat} (h1 : ¬ bslice l 0 4 = [77, 83, 67, 70])
    (h2 : bslice l 0 2 = [77, 90]) : detectType l = some FileType.pe := by
  unfold detectType
  rw [if_neg h1, if_pos h2]

theorem detect_min_length {l : List Nat} {t : FileType} (hd : detectType l = some t)
    (ht : ¬ t = FileType.pe) : 4 ≤ l.length := by
  unfold detectType at hd
  by_cases h1 : bslice l 0 4 = [77, 83, 67, 70]
  · have h4 : (bslice l 0 4).length = 4 := by rw [h1]; rfl
    rw [length_bslice] at h4; omega
  · rw [if_neg h1] at hd
    by_cases h2 : bslice l 0 2 = [77, 90]
    · rw [if_pos h2] at hd
      cases hd
      exact absurd rfl ht
    · rw [if_neg h2] at hd
      by_cases h3 : bslice l 0 8 = [208, 207, 17, 224, 161, 177, 26, 225]
      · have h8 : (bslice l 0 8).length = 8 := by rw [h3]; rfl
        rw [length_bslice] at h8; omega
      · rw [if_neg h3] at hd; cases hd

/-- The shared helper behind claim C9 and the non-PE half of claim C1: with a
    CAB or MSI input, each of the three non-sign commands takes the DO_EXIT
    path with the non-PE message, exits -1 and leaves no output artifact. -/
theorem nonPE_commands_fail (parse : List Nat → Option ParsedP7)
    (Hof : Nat → List Nat → List Nat) (l : List Nat) (t : FileType)
    (hd : detectType l = some t) (ht : ¬ t = FileType.pe) :
    runExtract l = RunResult.fail ErrMsg.notSupportedNonPE ∧
    runRemove l = RunResult.fail ErrMsg.notSupportedNonPE ∧
    runVerify parse Hof l = RunResult.fail ErrMsg.notSupportedNonPE := by
  have h4 : ¬ l.length < 4 := by
    have := detect_min_length hd ht
    omega
  unfold runExtract runRemove runVerify
  simp only [h4, if_false]
  rw [hd]
  cases t with
  | cab => exact ⟨rfl, rfl, rfl⟩
  | msi => exact ⟨rfl, rfl, rfl⟩
  | pe => exact absurd rfl ht

/-! ## Evaluation lemmas for the commands on a detected PE input -/

theorem runExtract_not_detected (l : List Nat) (h4 : ¬ l.length < 4)
    (hdet : detectType l = none) :
    runExtract l = RunResult.fail ErrMsg.unrecognizedType := by
  unfold runExtract
  rw [if_neg h4, hdet]

theorem runExtract_pe (l : List Nat) (L : PeLayout)
    (h4 : ¬ l.length < 4) (hdet : detectType l = some FileType.pe)
    (hL : parsePe l = some L) :
    runExtract l = (if L.sigpos = 0 then RunResult.fail ErrMsg.noSignature
      else RunResult.done 0 (some (bslice l L.sigpos (L.sigpos + L.siglen)))) := by
  unfold runExtract
  rw [if_neg h4, hdet, hL]

theorem runRemove_not_detected (l : List Nat) (h4 : ¬ l.length < 4)
    (hdet : detectType l = none) :
    runRemove l = RunResult.fail ErrMsg.unrecognizedType := by
  unfold runRemove
  rw [if_neg h4, hdet]

theorem runRemove_pe (l : List Nat) (L : PeLayout)
    (h4 : ¬ l.length < 4) (hdet : detectType l = some FileType.pe)
    (hL : parsePe l = some L) :
    runRemove l = (if L.sigpos = 0 then RunResult.fail ErrMsg.noSignature
      else RunResult.done 0 (some (writeAt (pe_strip_bytes l L (peFileend l L))
        (L.ph + 88)
        (put32 (calc_pe_checksum (pe_strip_bytes l L (peFileend l L)) L.ph))))) := by
  unfold runRemove
  rw [if_neg h4, hdet, hL]

theorem runRemove_bad_pe (l : List Nat)
    (h4 : ¬ l.length < 4) (hdet : detectType l = some FileType.pe)
    (hL : parsePe l = none) :
    runRemove l = RunResult.fail ErrMsg.corruptPETooShort := by
  unfold runRemove
  rw [if_neg h4, hdet, hL]

theorem runVerify_pe (parse : List Nat → Option ParsedP7)
    (Hof : Nat → List Nat → List Nat) (l : List Nat) (L : PeLayout)
    (h4 : ¬ l.length < 4) (hdet : detectType l = some FileType.pe)
    (hL : parsePe l = some L) :
    runVerify parse Hof l =
      (match verify_pe_file parse Hof l L.ph L.pp
          (if 0 < L.sigpos then L.sigpos else l.length) L.siglen with
        | VRes.ret r => RunResult.done r none
        | VRes.undefRet => RunResult.undef
        | VRes.hang => RunResult.undef) := by
  unfold runVerify
  rw [if_neg h4, hdet, hL]

theorem signPe_pe (Hof : Nat → List Nat → List Nat) (mdnid : Nat)
    (sigDer l : List Nat) (L : PeLayout)
    (h4 : ¬ l.length < 4) (hdet : detectType l = some FileType.pe)
    (hL : parsePe l = some L) :
    signPe Hof mdnid sigDer l =
      some (pe_sign_out sigDer l L (peFileend l L),
        Hof mdnid (pe_sign_hash_stream l L (peFileend l L))) := by
  unfold signPe
  rw [if_neg h4, hdet, hL]

/-! ## Stream equalities for claim C2 -/

/-- The stream the sign path hashes equals the amended description: same
    ranges, padding counted from the pre-signature file end. -/
theorem pe_streams_eq (l : List Nat) (L : PeLayout) (fe : Nat) :
    pe_sign_hash_stream l L fe = pe_amended_stream l L fe := by
  unfold pe_sign_hash_stream pe_amended_stream
  rw [padOf_eq_pad8]
  have e2 : L.ph + 92 + 60 + L.pp * 16 + 8 = L.ph + 160 + L.pp * 16 := by omega
  have e1 : L.ph + 92 + 60 + L.pp * 16 = L.ph + 152 + L.pp * 16 := by omega
  rw [e2, e1]

/-! ## Concrete outputs used by witnesses -/

/-- Output and stored digest of signing peU with the constant digest oracle. -/
def peUOut : List Nat := pe_sign_out sigDer0 peU (PeLayout.mk 64 0 0 0) 224

/-- Stored message digest of that signing operation. -/
def peUDig : List Nat := hofConst 4 (pe_sign_hash_stream peU (PeLayout.mk 64 0 0 0) 224)

/-- Output of extract-signature on peS. -/
def peSExtract : List Nat := bslice peS 224 240

/-- Output of remove-signature on peS. -/
def peSRemoved : List Nat :=
  writeAt (pe_strip_bytes peS (PeLayout.mk 64 0 224 16) 224) (64 + 88)
    (put32 (calc_pe_checksum (pe_strip_bytes peS (PeLayout.mk 64 0 224 16) 224) 64))

/-! ## Claim C2 -/

/-- Claim C2, amended: for every well-formed PE input on which sign
    completes, the digest stored in SpcIndirectDataContent.messageDigest
    equals the selected hash algorithm applied to the stream of the three
    Authenticode ranges followed by (8 - fileend mod 8) mod 8 zero bytes,
    padding the pre-signature file end (not the hash stream) to an 8 byte
    boundary. -/
theorem C2_amended_thm (Hof : Nat → List Nat → List Nat) (mdnid : Nat)
    (sigDer l out dg : List Nat) (L : PeLayout)
    (hL : parsePe l = some L)
    (hsign : signPe Hof mdnid sigDer l = some (out, dg)) :
    dg = Hof mdnid (pe_amended_stream l L (peFileend l L)) := by
  obtain ⟨h64, -, -, -, -, -, -, -, -⟩ := parsePe_some hL
  unfold signPe at hsign
  rw [if_neg (by omega)] at hsign
  cases hdet : detectType l with
  | none => rw [hdet] at hsign; cases hsign
  | some t =>
    cases t with
    | cab => rw [hdet] at hsign; cases hsign
    | msi => rw [hdet] at hsign; cases hsign
    | pe =>
      rw [hdet, hL] at hsign
      simp only [Option.some.injEq, Prod.mk.injEq] at hsign
      obtain ⟨-, hd⟩ := hsign
      rw [← hd]
      rw [pe_streams_eq]

/-- Witness for claim C2: the amended statement evaluated on the concrete
    unsigned PE image peU. -/
theorem C2_witness :
    signPe hofConst 4 sigDer0 peU = some (peUOut, peUDig) ∧
    peUDig = hofConst 4 (pe_amended_stream peU (PeLayout.mk 64 0 0 0)
      (peFileend peU (PeLayout.mk 64 0 0 0))) :=
  ⟨by decide, C2_amended_thm hofConst 4 sigDer0 peU peUOut peUDig (PeLayout.mk 64 0 0 0)
    (by decide) (by decide)⟩

/-- Counterexample to claim C2 as stated: on the well-formed 224 byte PE
    image peU (fileend 224, already 8 byte aligned) the sign path appends no
    padding, so the hashed stream has 212 bytes; the stream the claim
    describes pads those 212 bytes to 216.  A digest algorithm that depends
    on the stream length separates the stored digest from the claimed one. -/
theorem C2_counterexample :
    parsePe peU = some (PeLayout.mk 64 0 0 0) ∧
    (signPe hofLen 4 sigDer0 peU).map Prod.snd = some [212] ∧
    hofLen 4 (pe_claimed_stream peU (PeLayout.mk 64 0 0 0) 224) = [216] ∧
    ¬ (signPe hofLen 4 sigDer0 peU).map Prod.snd =
        some (hofLen 4 (pe_claimed_stream peU (PeLayout.mk 64 0 0 0) 224)) := by
  refine ⟨by decide, by decide, by decide, by decide⟩

/-! ## Claim C3 -/

/-- Claim C3, amended: for every signed PE input, extract-signature writes
    exactly sig_table_len bytes, namely the whole certificate table starting
    at sigpos - the WIN_CERTIFICATE record including its 8 byte header, not
    the payload without the header. -/
theorem C3_amended_thm (l out : List Nat) (L : PeLayout)
    (hL : parsePe l = some L)
    (h : runExtract l = RunResult.done 0 (some out)) :
    out = bslice l L.sigpos (L.sigpos + L.siglen) ∧ out.length = L.siglen ∧
    0 < L.sigpos ∧ L.sigpos + L.siglen = l.length := by
  obtain ⟨h64, -, -, -, -, -, -, -, hend⟩ := parsePe_some hL
  cases hdet : detectType l with
  | none =>
    rw [runExtract_not_detected l (by omega) hdet] at h
    cases h
  | some t =>
    cases t with
    | cab => rw [(nonPE_commands_fail parseNone hofConst l FileType.cab hdet (by simp)).1] at h; cases h
    | msi => rw [(nonPE_commands_fail parseNone hofConst l FileType.msi hdet (by simp)).1] at h; cases h
    | pe =>
      rw [runExtract_pe l L (by omega) hdet hL] at h
      by_cases hsp : L.sigpos = 0
      · rw [if_pos hsp] at h; cases h
      rw [if_neg hsp] at h
      simp only [RunResult.done.injEq, Option.some.injEq] at h
      have hend2 := hend (by omega)
      have hout : out = bslice l L.sigpos (L.sigpos + L.siglen) := h.2.symm
      refine ⟨hout, ?_, by omega, hend2⟩
      rw [hout, length_bslice_of_le] <;> omega

/-- Witness for claim C3: the amended statement evaluated on the concrete
    signed PE image peS. -/
theorem C3_witness :
    runExtract peS = RunResult.done 0 (some peSExtract) ∧
    (peSExtract = bslice peS 224 (224 + 16) ∧ peSExtract.length = 16 ∧
      0 < 224 ∧ 224 + 16 = peS.length) := by
  constructor
  · decide
  · exact C3_amended_thm peS peSExtract (PeLayout.mk 64 0 224 16) (by decide) (by decide)

/-- Counterexample to claim C3 as stated: on peS the extraction output is the
    16 byte certificate table starting with the 8 byte WIN_CERTIFICATE
    header; it is not the 8 byte payload that excludes the header. -/
theorem C3_counterexample :
    runExtract peS = RunResult.done 0 (some peSExtract) ∧
    ¬ peSExtract = winCertPayload peS (PeLayout.mk 64 0 224 16) ∧
    peSExtract.length = 16 ∧
    (winCertPayload peS (PeLayout.mk 64 0 224 16)).length = 8 := by
  refine ⟨by decide, by decide, by decide, by decide⟩

/-! ## Claim C4 -/

/-- Claim C4 (code bug evidence): on the PE image peBad, whose only
    WIN_CERTIFICATE record has revision 0x0100, verify_pe_file cannot
    extract a stored digest and reaches the bare return statement, so its
    return value is unspecified instead of the nonzero value the claim
    requires; the outcome does not depend on the PKCS7 parser. -/
theorem C4_undefined_return :
    verify_pe_file parseNone hofConst peBad 64 0 224 16 = VRes.undefRet ∧
    verify_pe_file parse0 hofConst peBad 64 0 224 16 = VRes.undefRet ∧
    runVerify parseNone hofConst peBad = RunResult.undef := by
  refine ⟨by decide, by decide, by decide⟩

/-! ## Claim C6 -/

/-- Claim C6, amended: when the RFC 3161 timestamp exchange succeeds, the
    DER of the first SignerInfo of the returned token is attached to the
    primary SignerInfo as the unauthenticated attribute
    pkcs9-countersignature (1.2.840.113549.1.9.6), not as
    id-smime-aa-timeStampToken. -/
theorem C6_amended_thm (si : SignerInfoM) (reply : TimeStampRespM) (out : SignerInfoM)
    (h : add_timestamp_rfc3161 si reply = some out) :
    ∃ d rest, reply.token = some (TokenM.mk (d :: rest)) ∧
      out.unauthAttrs = si.unauthAttrs ++ [(pkcs9_countersignature_oid, d)] := by
  unfold add_timestamp_rfc3161 at h
  by_cases hs : reply.status ≠ 0
  · rw [if_pos hs] at h; cases h
  rw [if_neg hs] at h
  cases ht : reply.token with
  | none => rw [ht] at h; cases h
  | some t =>
    rw [ht] at h
    cases t with
    | mk ders =>
      cases hd : ders with
      | nil => rw [hd] at h; cases h
      | cons d rest =>
        rw [hd] at h
        simp only [Option.some.injEq] at h
        refine ⟨d, rest, by subst hd; rfl, ?_⟩
        rw [← h]
        rfl

/-- Witness for claim C6: the amended statement evaluated on a concrete
    successful timestamp reply. -/
theorem C6_witness :
    add_timestamp_rfc3161 (SignerInfoM.mk []) (TimeStampRespM.mk 0 (some (TokenM.mk [[5]]))) =
      some (SignerInfoM.mk [(pkcs9_countersignature_oid, [5])]) ∧
    (∃ d rest, (TimeStampRespM.mk 0 (some (TokenM.mk [[5]]))).token =
        some (TokenM.mk (d :: rest)) ∧
      (SignerInfoM.mk [(pkcs9_countersignature_oid, [5])]).unauthAttrs =
        (SignerInfoM.mk ([] : List (List Nat × List Nat))).unauthAttrs ++
          [(pkcs9_countersignature_oid, d)]) :=
  ⟨by decide, C6_amended_thm (SignerInfoM.mk []) (TimeStampRespM.mk 0 (some (TokenM.mk [[5]])))
    (SignerInfoM.mk [(pkcs9_countersignature_oid, [5])]) (by decide)⟩

/-- Counterexample to claim C6 as stated: a successful RFC 3161 attachment
    uses the attribute object identifier 1.2.840.113549.1.9.6
    (pkcs9-countersignature), which differs from the claimed
    1.2.840.113549.1.9.16.2.14 (id-smime-aa-timeStampToken). -/
theorem C6_counterexample :
    add_timestamp_rfc3161 (SignerInfoM.mk []) (TimeStampRespM.mk 0 (some (TokenM.mk [[9, 9]]))) =
      some (SignerInfoM.mk [(pkcs9_countersignature_oid, [9, 9])]) ∧
    ¬ pkcs9_countersignature_oid = id_smime_aa_timeStampToken_oid := by
  refine ⟨by decide, by decide⟩

/-! ## Claim C7 -/

/-- Claim C7 (code bug evidence): on the minimal signable CAB image cab44
    the sign command succeeds, but the byte stream fed to the digest does
    not contain the 20 byte cabsigned template between the modified header
    bytes and the folder entries; the code hashes only 4 bytes there, read
    from past the end of the 20 byte template (modelled by the junk
    parameter, here zero), so the hashed stream is 16 bytes shorter than the
    stream the claim describes. -/
theorem C7_oob_hash :
    signCab [0, 0, 0, 0] sigDer0 cab44 = some (cab_sign_out [0, 0, 0, 0] sigDer0 cab44) ∧
    ¬ cab_sig_hash_stream [0, 0, 0, 0] cab44 = cab_claimed_hash_stream cab44 16 ∧
    (cab_sig_hash_stream [0, 0, 0, 0] cab44).length + 16 =
      (cab_claimed_hash_stream cab44 16).length := by
  refine ⟨by decide, by decide, by decide⟩

/-! ## Claim C8 -/

/-- Claim C8, amended: msi_cmp converts both names to UTF-16LE and memcmps
    the bytes truncated to the shorter NUL-terminated byte count (strlen on
    the UTF-16 bytes, not the full encoding length); on a memcmp tie it
    returns 1 exactly when the first count is strictly greater and -1
    otherwise, including when the counts are equal - so it is not a total
    order on distinct names: for the names AB and AC (code points 65 66 and
    65 67) both orders compare strictly less. -/
theorem C8_amended_thm :
    (∀ a b : List Nat, msi_cmp a b = amended_msi_cmp a b) ∧
    msi_cmp [66, 65] [66, 68] = -1 ∧ msi_cmp [66, 68] [66, 65] = -1 := by
  refine ⟨fun a b => rfl, by decide, by decide⟩

/-- Counterexample to claim C8 as stated: on the names AB and AC the
    comparator returns -1 in both directions (strlen stops at the zero high
    byte of the first UTF-16 unit), contradicting both the claimed
    full-length truncation (which would order AC after AB) and the claim
    that the comparator is a total order on distinct names. -/
theorem C8_counterexample :
    msi_cmp [65, 66] [65, 67] = -1 ∧ msi_cmp [65, 67] [65, 66] = -1 ∧
    claimed_msi_cmp [65, 67] [65, 66] = 1 ∧
    ¬ msi_cmp [65, 67] [65, 66] = claimed_msi_cmp [65, 67] [65, 66] := by
  refine ⟨by decide, by decide, by decide, by decide⟩

/-! ## Claim C9 -/

/-- Claim C9: for every input whose magic bytes identify it as CAB or MSI,
    each of extract-signature, remove-signature and verify fails with the
    message that the command is not supported for non-PE files, the process
    exits nonzero (DO_EXIT returns -1), and no output artifact remains (the
    err_cleanup path unlinks the output before exiting, which the fail
    constructor models). -/
theorem C9_thm (parse : List Nat → Option ParsedP7)
    (Hof : Nat → List Nat → List Nat) (l : List Nat) (t : FileType)
    (hd : detectType l = some t) (ht : ¬ t = FileType.pe) :
    runExtract l = RunResult.fail ErrMsg.notSupportedNonPE ∧
    runRemove l = RunResult.fail ErrMsg.notSupportedNonPE ∧
    runVerify parse Hof l = RunResult.fail ErrMsg.notSupportedNonPE :=
  nonPE_commands_fail parse Hof l t hd ht

/-- Witness for claim C9: evaluated on the concrete CAB image cab44. -/
theorem C9_witness :
    detectType cab44 = some FileType.cab ∧
    (runExtract cab44 = RunResult.fail ErrMsg.notSupportedNonPE ∧
      runRemove cab44 = RunResult.fail ErrMsg.notSupportedNonPE ∧
      runVerify parse0 hofConst cab44 = RunResult.fail ErrMsg.notSupportedNonPE) :=
  ⟨by decide, C9_thm parse0 hofConst cab44 FileType.cab (by decide) (by decide)⟩

/-! ## Claim C10 -/

/-- Claim C10: when the stored PE checksum field at peheader+88 is zero, the
    verifier never flags a checksum mismatch: the comparison passes whatever
    the recomputed checksum is, and verify_pe_file behaves exactly as it
    does with a passing checksum comparison (ret starts at 0); only a
    nonzero stored checksum that differs from the recomputed one makes
    pe_checksum_mismatch true. -/
theorem C10_zero_checksum (parse : List Nat → Option ParsedP7)
    (Hof : Nat → List Nat → List Nat) (l : List Nat) (ph pp sigpos siglen : Nat)
    (h : u32le l (ph + 88) = 0) :
    pe_checksum_mismatch l ph (sigpos + siglen) = false ∧
    verify_pe_file parse Hof l ph pp sigpos siglen =
      verify_pe_rest parse Hof l ph pp sigpos siglen 0 := by
  have hm : pe_checksum_mismatch l ph (sigpos + siglen) = false := by
    unfold pe_checksum_mismatch
    simp [h]
  refine ⟨hm, ?_⟩
  unfold verify_pe_file
  rw [hm]
  simp

/-- Witness for claim C10: evaluated on the concrete image peU, whose stored
    checksum field is zero. -/
theorem C10_witness :
    u32le peU (64 + 88) = 0 ∧
    (pe_checksum_mismatch peU 64 (224 + 0) = false ∧
      verify_pe_file parse0 hofConst peU 64 0 224 0 =
        verify_pe_rest parse0 hofConst peU 64 0 224 0 0) :=
  ⟨by decide, C10_zero_checksum parse0 hofConst peU 64 0 224 0 (by decide)⟩

/-! ## Claim C5 -/

theorem u8_replicate_zero (n k : Nat) : u8 (List.replicate n 0) k = 0 := by
  unfold u8
  rw [List.getD_eq_getElem?_getD, List.getElem?_replicate]
  by_cases h : k < n
  · rw [if_pos h]; rfl
  · rw [if_neg h]; rfl

theorem u32le_zero_of_u8 (l : List Nat) (i : Nat)
    (h : ∀ k, k < 4 → u8 l (i + k) = 0) : u32le l i = 0 := by
  have h0 : u8 l i = 0 := by
    have e := h 0 (by omega)
    rw [Nat.add_zero] at e
    exact e
  have h1 := h 1 (by omega)
  have h2 := h 2 (by omega)
  have h3 := h 3 (by omega)
  unfold u32le
  rw [h0, h1, h2, h3]

/-- Claim C5, amended: for every PE file on which remove-signature succeeds
    (and whose signature lies after the headers), the output carries an
    all-zero certificate directory entry, so applying remove-signature to the
    output fails with the no-signature error instead of succeeding: the
    remove command is not idempotent in the claimed sense. -/
theorem C5_amended_thm (l out : List Nat) (L : PeLayout)
    (hL : parsePe l = some L)
    (hrem : runRemove l = RunResult.done 0 (some out))
    (hfe : L.ph + 160 + L.pp * 16 ≤ L.sigpos) :
    parsePe out = some (PeLayout.mk L.ph L.pp 0 0) ∧
    runRemove out = RunResult.fail ErrMsg.noSignature := by
  obtain ⟨h64, hph, h160, hsig, hmag, hnr, hspval, hslval, hend⟩ := parsePe_some hL
  cases hdet : detectType l with
  | none =>
    rw [runRemove_not_detected l (by omega) hdet] at hrem
    cases hrem
  | some t =>
    cases t with
    | cab =>
      rw [(nonPE_commands_fail parseNone hofConst l FileType.cab hdet (by simp)).2.1] at hrem
      cases hrem
    | msi =>
      rw [(nonPE_commands_fail parseNone hofConst l FileType.msi hdet (by simp)).2.1] at hrem
      cases hrem
    | pe =>
      rw [runRemove_pe l L (by omega) hdet hL] at hrem
      by_cases hsp : L.sigpos = 0
      · rw [if_pos hsp] at hrem; cases hrem
      rw [if_neg hsp] at hrem
      simp only [RunResult.done.injEq, Option.some.injEq] at hrem
      have hout := hrem.2.symm
      have hends := hend (by omega)
      have hfe_eq : peFileend l L = L.sigpos := by
        unfold peFileend
        rw [if_pos (by omega)]
      have hfl : peFileend l L ≤ l.length := by rw [hfe_eq]; omega
      have hfe2 : L.ph + 160 + L.pp * 16 ≤ peFileend l L := by rw [hfe_eq]; exact hfe
      have hlen152 : L.ph + 152 + L.pp * 16 ≤ l.length := by omega
      have hshape : out = peHead l L ++
          put32 (calc_pe_checksum (pe_strip_bytes l L (peFileend l L)) L.ph) ++
          peMid l L ++ List.replicate 8 0 ++
          (peTail l L (peFileend l L) ++ List.replicate (padOf (peFileend l L)) 0) := by
        rw [hout]
        exact remove_out_eq l L (peFileend l L) hfe2 hfl
      have hZlen : (put32 (calc_pe_checksum (pe_strip_bytes l L (peFileend l L)) L.ph)).length = 4 := by
        simp [put32]
      have houtlen : out.length = peFileend l L + padOf (peFileend l L) := by
        rw [hshape, peShape_len _ _ _ l L hZlen (by simp) hlen152]
        have ht : (peTail l L (peFileend l L) ++
            List.replicate (padOf (peFileend l L)) 0).length =
            (peFileend l L - (L.ph + 160 + L.pp * 16)) + padOf (peFileend l L) := by
          simp [peTail_len l L (peFileend l L) hfe2 hfl]
        rw [ht]
        omega
      have hk : ∀ i, i < L.ph + 88 ∨ (L.ph + 92 ≤ i ∧ i < L.ph + 152 + L.pp * 16) →
          u8 out i = u8 l i := by
        intro i hi
        rw [hshape]
        exact peShape_u8_keep _ _ _ l L hZlen hlen152 i hi
      have rdir : ∀ k, k < 8 → u8 out (L.ph + 152 + L.pp * 16 + k) = 0 := by
        intro k hkk
        rw [hshape, peShape_u8_Dseg _ _ _ l L hZlen (by simp) hlen152 k hkk]
        exact u8_replicate_zero 8 k
      have r60 : u32le out 60 = L.ph := by
        rw [u32le_congr out l 60 (hk 60 (by omega)) (hk (60 + 1) (by omega))
          (hk (60 + 2) (by omega)) (hk (60 + 3) (by omega))]
        omega
      have rsig_out : bslice out L.ph (L.ph + 4) = [80, 69, 0, 0] := by
        rw [hshape, peShape_bslice_low _ _ _ l L (by omega) L.ph (L.ph + 4) (by omega)]
        exact hsig
      have rmag : ppOf (u16le out (L.ph + 24)) = some L.pp := by
        rw [u16le_congr out l (L.ph + 24) (hk (L.ph + 24) (by omega))
          (hk (L.ph + 24 + 1) (by omega))]
        exact hmag
      have rnr : u32le out (L.ph + 116 + L.pp * 16) = u32le l (L.ph + 116 + L.pp * 16) :=
        u32le_congr out l _ (hk (L.ph + 116 + L.pp * 16) (by omega))
          (hk (L.ph + 116 + L.pp * 16 + 1) (by omega))
          (hk (L.ph + 116 + L.pp * 16 + 2) (by omega))
          (hk (L.ph + 116 + L.pp * 16 + 3) (by omega))
      have rsp0 : u32le out (L.ph + 152 + L.pp * 16) = 0 := by
        apply u32le_zero_of_u8
        intro k hkk
        exact rdir k (by omega)
      have rsl0 : u32le out (L.ph + 152 + L.pp * 16 + 4) = 0 := by
        apply u32le_zero_of_u8
        intro k hkk
        have e : L.ph + 152 + L.pp * 16 + 4 + k = L.ph + 152 + L.pp * 16 + (4 + k) := by
          omega
        rw [e]
        exact rdir (4 + k) (by omega)
      have hp_out : parsePe out = some (PeLayout.mk L.ph L.pp 0 0) := by
        apply parsePe_mk
        · rw [houtlen]; omega
        · exact r60
        · rw [houtlen]; omega
        · exact rsig_out
        · exact rmag
        · rw [rnr]; exact hnr
        · exact rsp0
        · exact rsl0
        · intro hcon; omega
      have hdet_out : detectType out = some FileType.pe := by
        obtain ⟨hnm, hmz⟩ := detect_pe hdet
        apply detect_pe_mk
        · rw [hshape, peShape_bslice_low _ _ _ l L (by omega) 0 4 (by omega)]
          exact hnm
        · rw [hshape, peShape_bslice_low _ _ _ l L (by omega) 0 2 (by omega)]
          exact hmz
      refine ⟨hp_out, ?_⟩
      rw [runRemove_pe out (PeLayout.mk L.ph L.pp 0 0) (by rw [houtlen]; omega)
        hdet_out hp_out]
      rw [if_pos rfl]

/-- Witness for claim C5: the amended statement evaluated on the concrete
    signed PE image peS. -/
theorem C5_witness :
    runRemove peS = RunResult.done 0 (some peSRemoved) ∧
    (parsePe peSRemoved = some (PeLayout.mk 64 0 0 0) ∧
      runRemove peSRemoved = RunResult.fail ErrMsg.noSignature) :=
  ⟨by decide, C5_amended_thm peS peSRemoved (PeLayout.mk 64 0 224 16)
    (by decide) (by decide) (by decide)⟩

/-- Counterexample to claim C5 as stated: remove-signature succeeds on peS,
    but applying remove-signature to the result fails with the no-signature
    error, so remove(remove(P)) is not remove(P). -/
theorem C5_counterexample :
    runRemove peS = RunResult.done 0 (some peSRemoved) ∧
    runRemove peSRemoved = RunResult.fail ErrMsg.noSignature ∧
    ¬ runRemove peSRemoved = RunResult.done 0 (some peSRemoved) := by
  refine ⟨by decide, by decide, by decide⟩

/-! ## Claim C1 -/

/-- Output of signing cab44. -/
def cabOut : List Nat := cab_sign_out [0, 0, 0, 0] sigDer0 cab44

/-- Counterexample to claim C1 as stated: the sign command succeeds on the
    well-formed CAB image cab44, but running the verify command on its output
    fails with the non-PE message and exits nonzero, because verify is only
    implemented for PE files.  The round trip therefore does not hold for
    all three container families. -/
theorem C1_counterexample :
    signCab [0, 0, 0, 0] sigDer0 cab44 = some cabOut ∧
    runVerify parse0 hofConst cabOut = RunResult.fail ErrMsg.notSupportedNonPE := by
  refine ⟨by decide, by decide⟩

theorem calc_pe_checksum_lt (l : List Nat) (ph : Nat) :
    calc_pe_checksum l ph < 4294967296 := by
  simp only [calc_pe_checksum]
  exact Nat.mod_lt _ (by omega)

theorem u32le_put32_self (v : Nat) (hv : v < 4294967296) : u32le (put32 v) 0 = v := by
  have e : put32 v = put32 v ++ [] := by simp
  rw [e, u32le_put32_front]
  omega

theorem bslice_drop_form (y l : List Nat) (a b : Nat) (h : l.drop a = y) :
    bslice l a b = y.take (b - a) := by
  unfold bslice
  rw [h]

/-- First-iteration hit of the certificate record walk: with a matching
    record at offset 0 whose payload parses to a signed indirect PKCS7
    carrying a digest, the walk stops and reports it. -/
theorem findCert_hit (parse : List Nat → Option ParsedP7) (l : List Nat)
    (sigpos siglen fuel nid : Nat) (dg blob : List Nat) (cok : Bool)
    (hpos : 0 < siglen)
    (hrev : u16le l (sigpos + 4) = 512) (hty : u16le l (sigpos + 6) = 2)
    (hblob : bslice l (sigpos + 8) (sigpos + u32le l sigpos) = blob)
    (hparse : parse blob = some (ParsedP7.mk true (some (nid, dg)) cok)) :
    findCert parse l sigpos siglen (Nat.succ fuel) 0 = some (some (nid, dg, cok)) := by
  have hrec : certRecordParse parse l sigpos 0 = some (nid, dg, cok) := by
    unfold certRecordParse
    simp only [Nat.add_zero]
    rw [if_pos ⟨hrev, hty⟩, hblob, hparse]
    rfl
  unfold findCert
  rw [if_pos hpos, hrec]

/-- The verify command on an input already known to be a PE with the given
    layout fields. -/
theorem runVerify_pe_mk (parse : List Nat → Option ParsedP7)
    (Hof : Nat → List Nat → List Nat) (l : List Nat) (ph pp sigpos siglen : Nat)
    (h4 : ¬ l.length < 4) (hdet : detectType l = some FileType.pe)
    (hL : parsePe l = some (PeLayout.mk ph pp sigpos siglen)) :
    runVerify parse Hof l =
      (match verify_pe_file parse Hof l ph pp
          (if 0 < sigpos then sigpos else l.length) siglen with
        | VRes.ret r => RunResult.done r none
        | VRes.undefRet => RunResult.undef
        | VRes.hang => RunResult.undef) := by
  unfold runVerify
  rw [if_neg h4, hdet, hL]

/-- Claim C1, amended: the sign-then-verify round trip holds for the PE
    family with any digest algorithm, under the standing assumption that the
    external OpenSSL codec round-trips (d2i_PKCS7 recovers from the written
    blob the algorithm and the digest that sign stored, and PKCS7_verify
    accepts the signature it produced); for CAB and MSI inputs the verify
    command is refused for non-PE files, so the claimed round trip fails for
    those two families. -/
theorem C1_amended_thm
    (parse : List Nat → Option ParsedP7) (Hof : Nat → List Nat → List Nat)
    (mdnid : Nat) (sigDer l : List Nat) (L : PeLayout)
    (hdet : detectType l = some FileType.pe)
    (hL : parsePe l = some L)
    (hph2 : L.ph % 2 = 0)
    (hfe : L.ph + 160 + L.pp * 16 ≤ peFileend l L)
    (hlen : l.length + 8 < 4294967296)
    (hsd : sigDer.length + 16 < 4294967296)
    (hparse : parse (sigDer ++ List.replicate (pad8 sigDer.length) 0) =
      some (ParsedP7.mk true
        (some (mdnid, Hof mdnid (pe_sign_hash_stream l L (peFileend l L)))) true)) :
    signPe Hof mdnid sigDer l =
      some (pe_sign_out sigDer l L (peFileend l L),
        Hof mdnid (pe_sign_hash_stream l L (peFileend l L))) ∧
    runVerify parse Hof (pe_sign_out sigDer l L (peFileend l L)) =
      RunResult.done 0 none ∧
    (∀ d t, detectType d = some t → ¬ t = FileType.pe →
      runVerify parse Hof d = RunResult.fail ErrMsg.notSupportedNonPE) := by
  obtain ⟨h64, hph, h160, hsig, hmag, hnr, hspval, hslval, hend⟩ := parsePe_some hL
  set fe := peFileend l L with hfedef
  have hfl : fe ≤ l.length := by
    rw [hfedef]
    unfold peFileend
    by_cases hsp : 0 < L.sigpos
    · rw [if_pos hsp]
      have := hend hsp
      omega
    · rw [if_neg hsp]
  refine ⟨signPe_pe Hof mdnid sigDer l L (by omega) hdet hL, ?_,
    fun d t hd ht => (nonPE_commands_fail parse Hof d t hd ht).2.2⟩
  have hpadb : padOf fe ≤ 7 := by
    unfold padOf
    split <;> omega
  have hp8 : pad8 sigDer.length ≤ 7 := by
    unfold pad8
    omega
  have hlen152 : L.ph + 152 + L.pp * 16 ≤ l.length := by omega
  have hshape : pe_sign_out sigDer l L fe =
      peHead l L ++ put32 (calc_pe_checksum (peOut1 sigDer l L fe) L.ph) ++
      peMid l L ++ dirEntryBytes sigDer fe ++ peSigTail sigDer l L fe :=
    pe_sign_out_eq sigDer l L fe hfe hfl
  have hZlen : (put32 (calc_pe_checksum (peOut1 sigDer l L fe) L.ph)).length = 4 := by
    simp [put32]
  have hDlen : (dirEntryBytes sigDer fe).length = 8 := dirEntryBytes_len sigDer fe
  have hRlen : (peSigTail sigDer l L fe).length =
      (fe - (L.ph + 160 + L.pp * 16)) + padOf fe + 8 + sigDer.length +
        pad8 sigDer.length := peSigTail_len sigDer l L fe hfe hfl
  have houtlen : (pe_sign_out sigDer l L fe).length =
      fe + padOf fe + 8 + sigDer.length + pad8 sigDer.length := by
    rw [hshape, peShape_len _ _ _ l L hZlen hDlen hlen152, hRlen]
    omega
  have hk : ∀ i, (i < L.ph + 88 ∨ (L.ph + 92 ≤ i ∧ i < L.ph + 152 + L.pp * 16)) →
      u8 (pe_sign_out sigDer l L fe) i = u8 l i := by
    intro i hi
    rw [hshape]
    exact peShape_u8_keep _ _ _ l L hZlen hlen152 i hi
  have r60 : u32le (pe_sign_out sigDer l L fe) 60 = L.ph := by
    rw [u32le_congr (pe_sign_out sigDer l L fe) l 60 (hk 60 (by omega))
      (hk (60 + 1) (by omega)) (hk (60 + 2) (by omega)) (hk (60 + 3) (by omega))]
    omega
  have rsig_out : bslice (pe_sign_out sigDer l L fe) L.ph (L.ph + 4) = [80, 69, 0, 0] := by
    rw [hshape, peShape_bslice_low _ _ _ l L (by omega) L.ph (L.ph + 4) (by omega)]
    exact hsig
  have rmag : ppOf (u16le (pe_sign_out sigDer l L fe) (L.ph + 24)) = some L.pp := by
    rw [u16le_congr (pe_sign_out sigDer l L fe) l (L.ph + 24)
      (hk (L.ph + 24) (by omega)) (hk (L.ph + 24 + 1) (by omega))]
    exact hmag
  have rnr : u32le (pe_sign_out sigDer l L fe) (L.ph + 116 + L.pp * 16) =
      u32le l (L.ph + 116 + L.pp * 16) :=
    u32le_congr _ l _ (hk (L.ph + 116 + L.pp * 16) (by omega))
      (hk (L.ph + 116 + L.pp * 16 + 1) (by omega))
      (hk (L.ph + 116 + L.pp * 16 + 2) (by omega))
      (hk (L.ph + 116 + L.pp * 16 + 3) (by omega))
  have rdir : ∀ k, k < 8 → u8 (pe_sign_out sigDer l L fe) (L.ph + 152 + L.pp * 16 + k) =
      u8 (dirEntryBytes sigDer fe) k := by
    intro k hkk
    rw [hshape]
    exact peShape_u8_Dseg _ _ _ l L hZlen hDlen hlen152 k hkk
  have rsp : u32le (pe_sign_out sigDer l L fe) (L.ph + 152 + L.pp * 16) =
      fe + padOf fe := by
    rw [u32le_shift (pe_sign_out sigDer l L fe) (dirEntryBytes sigDer fe) _
      (fun k hk4 => rdir k (by omega))]
    unfold dirEntryBytes
    rw [u32le_put32_front]
    omega
  have rsl : u32le (pe_sign_out sigDer l L fe) (L.ph + 152 + L.pp * 16 + 4) =
      sigDer.length + 8 + pad8 sigDer.length := by
    have hseg : ∀ k, k < 4 → u8 (pe_sign_out sigDer l L fe)
        (L.ph + 152 + L.pp * 16 + 4 + k) =
        u8 (put32 (sigDer.length + 8 + pad8 sigDer.length)) k := by
      intro k hk4
      have e : L.ph + 152 + L.pp * 16 + 4 + k = L.ph + 152 + L.pp * 16 + (4 + k) := by
        omega
      rw [e, rdir (4 + k) (by omega)]
      unfold dirEntryBytes
      have e2 : 4 + k = (put32 (fe + padOf fe)).length + k := by simp [put32]
      rw [e2, u8_app_ge]
    rw [u32le_shift (pe_sign_out sigDer l L fe)
      (put32 (sigDer.length + 8 + pad8 sigDer.length)) _ hseg]
    rw [u32le_put32_self _ (by omega)]
  have rR : ∀ k, u8 (pe_sign_out sigDer l L fe) (L.ph + 160 + L.pp * 16 + k) =
      u8 (peSigTail sigDer l L fe) k := by
    intro k
    rw [hshape]
    exact peShape_u8_Rseg _ _ _ l L hZlen hDlen hlen152 k
  have rW : ∀ k, u8 (pe_sign_out sigDer l L fe) (fe + padOf fe + k) =
      u8 (winCertHeader sigDer.length (pad8 sigDer.length) ++
        (sigDer ++ List.replicate (pad8 sigDer.length) 0)) k := by
    intro k
    have e : fe + padOf fe + k =
        L.ph + 160 + L.pp * 16 + ((fe - (L.ph + 160 + L.pp * 16)) + padOf fe + k) := by
      omega
    rw [e, rR]
    unfold peSigTail
    simp only [List.append_assoc]
    have e2 : (fe - (L.ph + 160 + L.pp * 16)) + padOf fe + k =
        (peTail l L fe).length + ((List.replicate (padOf fe) 0).length + k) := by
      rw [peTail_len l L fe hfe hfl]
      simp only [List.length_replicate]
      omega
    rw [e2, u8_app_ge, u8_app_ge]
  have rlen : u32le (pe_sign_out sigDer l L fe) (fe + padOf fe) =
      sigDer.length + 8 + pad8 sigDer.length := by
    rw [u32le_shift (pe_sign_out sigDer l L fe) _ _ (fun k hk4 => rW k)]
    unfold winCertHeader
    simp only [List.append_assoc]
    rw [u32le_put32_front]
    omega
  have rrev : u16le (pe_sign_out sigDer l L fe) (fe + padOf fe + 4) = 512 := by
    have hseg : ∀ k, k < 2 → u8 (pe_sign_out sigDer l L fe) (fe + padOf fe + 4 + k) =
        u8 (put16 512) k := by
      intro k hk2
      have e : fe + padOf fe + 4 + k = fe + padOf fe + (4 + k) := by omega
      rw [e, rW (4 + k)]
      unfold winCertHeader
      simp only [List.append_assoc]
      have e2 : 4 + k = (put32 (sigDer.length + 8 + pad8 sigDer.length)).length + k := by
        simp [put32]
      rw [e2, u8_app_ge, u8_app_lt _ _ _ (by simp [put16]; omega)]
    rw [u16le_shift (pe_sign_out sigDer l L fe) (put16 512) _ hseg]
    rfl
  have rtyp : u16le (pe_sign_out sigDer l L fe) (fe + padOf fe + 6) = 2 := by
    have hseg : ∀ k, k < 2 → u8 (pe_sign_out sigDer l L fe) (fe + padOf fe + 6 + k) =
        u8 (put16 2) k := by
      intro k hk2
      have e : fe + padOf fe + 6 + k = fe + padOf fe + (6 + k) := by omega
      rw [e, rW (6 + k)]
      unfold winCertHeader
      simp only [List.append_assoc]
      have e2 : 6 + k = (put32 (sigDer.length + 8 + pad8 sigDer.length)).length +
          ((put16 512).length + k) := by
        simp [put32, put16]
        omega
      rw [e2, u8_app_ge, u8_app_ge, u8_app_lt _ _ _ (by simp [put16]; omega)]
    rw [u16le_shift (pe_sign_out sigDer l L fe) (put16 2) _ hseg]
    rfl
  have rblob : bslice (pe_sign_out sigDer l L fe) (fe + padOf fe + 8)
      (fe + padOf fe + (sigDer.length + 8 + pad8 sigDer.length)) =
      sigDer ++ List.replicate (pad8 sigDer.length) 0 := by
    rw [hshape]
    have hXlen : (peHead l L ++ put32 (calc_pe_checksum (peOut1 sigDer l L fe) L.ph) ++
        peMid l L ++ dirEntryBytes sigDer fe).length = L.ph + 160 + L.pp * 16 := by
      simp [peHead_len l L (by omega), peMid_len l L hlen152, dirEntryBytes_len, put32]
      omega
    have ea : fe + padOf fe + 8 =
        (peHead l L ++ put32 (calc_pe_checksum (peOut1 sigDer l L fe) L.ph) ++
          peMid l L ++ dirEntryBytes sigDer fe).length +
        ((fe - (L.ph + 160 + L.pp * 16)) + padOf fe + 8) := by
      rw [hXlen]
      omega
    have eb : fe + padOf fe + (sigDer.length + 8 + pad8 sigDer.length) =
        (peHead l L ++ put32 (calc_pe_checksum (peOut1 sigDer l L fe) L.ph) ++
          peMid l L ++ dirEntryBytes sigDer fe).length +
        ((fe - (L.ph + 160 + L.pp * 16)) + padOf fe +
          (sigDer.length + 8 + pad8 sigDer.length)) := by
      rw [hXlen]
      omega
    rw [ea, eb, bslice_shift]
    have e3 : (fe - (L.ph + 160 + L.pp * 16)) + padOf fe +
        (sigDer.length + 8 + pad8 sigDer.length) = (peSigTail sigDer l L fe).length := by
      rw [hRlen]
      omega
    rw [e3, bslice_to_end]
    unfold peSigTail
    simp only [List.append_assoc]
    have e4 : (fe - (L.ph + 160 + L.pp * 16)) + padOf fe + 8 =
        (peTail l L fe).length + ((List.replicate (padOf fe) 0).length +
          ((winCertHeader sigDer.length (pad8 sigDer.length)).length + 0)) := by
      rw [peTail_len l L fe hfe hfl, winCertHeader_len]
      simp only [List.length_replicate]
      omega
    rw [e4, drop_app_add, drop_app_add, drop_app_add]
    simp
  have hstored : u32le (pe_sign_out sigDer l L fe) (L.ph + 88) =
      calc_pe_checksum (peOut1 sigDer l L fe) L.ph := by
    have hseg : ∀ k, k < 4 → u8 (pe_sign_out sigDer l L fe) (L.ph + 88 + k) =
        u8 (put32 (calc_pe_checksum (peOut1 sigDer l L fe) L.ph)) k := by
      intro k hk4
      rw [hshape]
      exact peShape_u8_Zseg _ _ _ l L (by omega) k hk4 hZlen
    rw [u32le_shift (pe_sign_out sigDer l L fe) _ _ hseg]
    exact u32le_put32_self _ (calc_pe_checksum_lt _ _)
  have hcseq : calc_pe_checksum (pe_sign_out sigDer l L fe) L.ph =
      calc_pe_checksum (peOut1 sigDer l L fe) L.ph := by
    rw [hshape]
    have e : peOut1 sigDer l L fe = peHead l L ++ [0, 0, 0, 0] ++ peMid l L ++
        dirEntryBytes sigDer fe ++ peSigTail sigDer l L fe := rfl
    rw [e]
    exact calc_shape_Z_irrel _ _ _ _ l L hZlen (by simp) hph2 hlen152
  have c1 : bslice (pe_sign_out sigDer l L fe) 0 (L.ph + 88) = bslice l 0 (L.ph + 88) := by
    rw [hshape]
    exact peShape_bslice_low _ _ _ l L (by omega) 0 (L.ph + 88) (le_refl _)
  have c2 : bslice (pe_sign_out sigDer l L fe) (L.ph + 92) (L.ph + 152 + L.pp * 16) =
      bslice l (L.ph + 92) (L.ph + 152 + L.pp * 16) := by
    rw [hshape]
    rw [shape_mid (peHead l L) (put32 (calc_pe_checksum (peOut1 sigDer l L fe) L.ph))
      (peMid l L) (dirEntryBytes sigDer fe) (peSigTail sigDer l L fe) L.ph L.pp
      (peHead_len l L (by omega)) hZlen (peMid_len l L hlen152)]
    rfl
  have c3 : bslice (pe_sign_out sigDer l L fe) (L.ph + 160 + L.pp * 16) (fe + padOf fe) =
      bslice l (L.ph + 160 + L.pp * 16) fe ++ List.replicate (padOf fe) 0 := by
    rw [hshape]
    have hdrop : (peHead l L ++ put32 (calc_pe_checksum (peOut1 sigDer l L fe) L.ph) ++
        peMid l L ++ dirEntryBytes sigDer fe ++ peSigTail sigDer l L fe).drop
          (L.ph + 160 + L.pp * 16) = peSigTail sigDer l L fe :=
      shape_drop_R _ _ _ _ _ L.ph L.pp (peHead_len l L (by omega)) hZlen
        (peMid_len l L hlen152) hDlen
    rw [bslice_drop_form (peSigTail sigDer l L fe) _ _ _ hdrop]
    have e5 : (fe + padOf fe) - (L.ph + 160 + L.pp * 16) =
        (peTail l L fe ++ List.replicate (padOf fe) 0).length := by
      rw [List.length_append, peTail_len l L fe hfe hfl]
      simp only [List.length_replicate]
      omega
    rw [e5]
    unfold peSigTail
    have e6 : peTail l L fe ++ List.replicate (padOf fe) 0 ++
        winCertHeader sigDer.length (pad8 sigDer.length) ++ sigDer ++
        List.replicate (pad8 sigDer.length) 0 =
        (peTail l L fe ++ List.replicate (padOf fe) 0) ++
        (winCertHeader sigDer.length (pad8 sigDer.length) ++
          (sigDer ++ List.replicate (pad8 sigDer.length) 0)) := by
      simp
    rw [e6, take_app_all]
    rfl
  have hdg : pe_digest_stream (pe_sign_out sigDer l L fe) L.ph L.pp (fe + padOf fe) =
      pe_sign_hash_stream l L fe := by
    unfold pe_digest_stream pe_sign_hash_stream
    rw [c1, c2, c3]
    simp [List.append_assoc]
  have hdet_out : detectType (pe_sign_out sigDer l L fe) = some FileType.pe := by
    obtain ⟨hnm, hmz⟩ := detect_pe hdet
    apply detect_pe_mk
    · rw [hshape, peShape_bslice_low _ _ _ l L (by omega) 0 4 (by omega)]
      exact hnm
    · rw [hshape, peShape_bslice_low _ _ _ l L (by omega) 0 2 (by omega)]
      exact hmz
  have hp_out : parsePe (pe_sign_out sigDer l L fe) =
      some (PeLayout.mk L.ph L.pp (fe + padOf fe)
        (sigDer.length + 8 + pad8 sigDer.length)) := by
    apply parsePe_mk
    · rw [houtlen]; omega
    · exact r60
    · rw [houtlen]; omega
    · exact rsig_out
    · exact rmag
    · rw [rnr]; exact hnr
    · exact rsp
    · exact rsl
    · intro hcon
      rw [houtlen]
      omega
  have hmm : pe_checksum_mismatch (pe_sign_out sigDer l L fe) L.ph
      (fe + padOf fe + (sigDer.length + 8 + pad8 sigDer.length)) = false := by
    unfold pe_checksum_mismatch
    have hall : bslice (pe_sign_out sigDer l L fe) 0
        (fe + padOf fe + (sigDer.length + 8 + pad8 sigDer.length)) =
        pe_sign_out sigDer l L fe := by
      have e : fe + padOf fe + (sigDer.length + 8 + pad8 sigDer.length) =
          (pe_sign_out sigDer l L fe).length := by
        rw [houtlen]
        omega
      rw [e, bslice_all]
    rw [hall, hstored, hcseq]
    simp
  have hblob2 : bslice (pe_sign_out sigDer l L fe) (fe + padOf fe + 8)
      (fe + padOf fe + u32le (pe_sign_out sigDer l L fe) (fe + padOf fe)) =
      sigDer ++ List.replicate (pad8 sigDer.length) 0 := by
    rw [rlen]
    exact rblob
  have hfind : findCert parse (pe_sign_out sigDer l L fe) (fe + padOf fe)
      (sigDer.length + 8 + pad8 sigDer.length)
      (Nat.succ (sigDer.length + 8 + pad8 sigDer.length)) 0 =
      some (some (mdnid, Hof mdnid (pe_sign_hash_stream l L fe), true)) :=
    findCert_hit parse (pe_sign_out sigDer l L fe) (fe + padOf fe)
      (sigDer.length + 8 + pad8 sigDer.length)
      (sigDer.length + 8 + pad8 sigDer.length) mdnid
      (Hof mdnid (pe_sign_hash_stream l L fe))
      (sigDer ++ List.replicate (pad8 sigDer.length) 0) true
      (by omega) rrev rtyp hblob2 hparse
  have hrest : verify_pe_rest parse Hof (pe_sign_out sigDer l L fe) L.ph L.pp
      (fe + padOf fe) (sigDer.length + 8 + pad8 sigDer.length) 0 = VRes.ret 0 := by
    unfold verify_pe_rest
    rw [if_neg (by omega : ¬ sigDer.length + 8 + pad8 sigDer.length = 0)]
    have e1 : sigDer.length + 8 + pad8 sigDer.length + 1 =
        Nat.succ (sigDer.length + 8 + pad8 sigDer.length) := rfl
    rw [e1, hfind, hdg]
    simp
  have hvm : verify_pe_file parse Hof (pe_sign_out sigDer l L fe) L.ph L.pp
      (fe + padOf fe) (sigDer.length + 8 + pad8 sigDer.length) = VRes.ret 0 := by
    unfold verify_pe_file
    rw [hmm]
    simpa using hrest
  rw [runVerify_pe_mk parse Hof (pe_sign_out sigDer l L fe) L.ph L.pp
    (fe + padOf fe) (sigDer.length + 8 + pad8 sigDer.length)
    (by rw [houtlen]; omega) hdet_out hp_out]
  rw [if_pos (by omega : 0 < fe + padOf fe), hvm]

/-- Witness for claim C1: the amended statement evaluated on the concrete
    unsigned PE image peU with a constant digest oracle and a parser oracle
    satisfying the codec round-trip assumption. -/
theorem C1_witness :
    signPe hofConst 4 sigDer0 peU = some (peUOut, peUDig) ∧
    (signPe hofConst 4 sigDer0 peU =
        some (pe_sign_out sigDer0 peU (PeLayout.mk 64 0 0 0)
            (peFileend peU (PeLayout.mk 64 0 0 0)),
          hofConst 4 (pe_sign_hash_stream peU (PeLayout.mk 64 0 0 0)
            (peFileend peU (PeLayout.mk 64 0 0 0)))) ∧
      runVerify parse0 hofConst (pe_sign_out sigDer0 peU (PeLayout.mk 64 0 0 0)
          (peFileend peU (PeLayout.mk 64 0 0 0))) = RunResult.done 0 none ∧
      (∀ d t, detectType d = some t → ¬ t = FileType.pe →
        runVerify parse0 hofConst d = RunResult.fail ErrMsg.notSupportedNonPE)) :=
  ⟨by decide, C1_amended_thm parse0 hofConst 4 sigDer0 peU (PeLayout.mk 64 0 0 0)
    (by decide) (by decide) (by decide) (by decide) (by decide) (by decide) (by decide)⟩
